import Mathlib

/-!
Shallow embedding of the elementwise kernel specialization and dispatch
engine of `src/elementwise.py`, together with the per-device memoization
decorator of `src/cuda/device.py`.  Pure functions of the source become
Lean functions; the mutable per-device compilation cache becomes explicit
state passing; fallible code returns `Except PyError`.
-/

deriving instance DecidableEq for Except

/-- Element dtypes: the twelve numpy dtypes of the `_typenames` table in
`src/elementwise.py` (lines 40-53). -/
inductive Dtype where
  | bool | int8 | int16 | int32 | int64
  | uint8 | uint16 | uint32 | uint64
  | float16 | float32 | float64
deriving DecidableEq

/-- Canonical numpy dtype name (`numpy.dtype(t).name`), modelling the numpy
collaborator used by `ParameterInfo.__init__` (line 160-161). -/
def dtypeName : Dtype → String
  | .bool => "bool"
  | .int8 => "int8"
  | .int16 => "int16"
  | .int32 => "int32"
  | .int64 => "int64"
  | .uint8 => "uint8"
  | .uint16 => "uint16"
  | .uint32 => "uint32"
  | .uint64 => "uint64"
  | .float16 => "float16"
  | .float32 => "float32"
  | .float64 => "float64"

/-- The `_typenames` table of `src/elementwise.py` (lines 40-53): CUDA C
type name of each dtype (`_get_typename`). -/
def cTypename : Dtype → String
  | .float64 => "double"
  | .float32 => "float"
  | .float16 => "float16"
  | .int64 => "long long"
  | .int32 => "int"
  | .int16 => "short"
  | .int8 => "signed char"
  | .uint64 => "unsigned long long"
  | .uint32 => "unsigned int"
  | .uint16 => "unsigned short"
  | .uint8 => "unsigned char"
  | .bool => "bool"

/-- Byte size of each dtype, used for the strides of freshly allocated
C-contiguous arrays (the `cupy.empty` collaborator). -/
def itemsize : Dtype → Nat
  | .bool => 1
  | .int8 => 1
  | .int16 => 2
  | .int32 => 4
  | .int64 => 8
  | .uint8 => 1
  | .uint16 => 2
  | .uint32 => 4
  | .uint64 => 8
  | .float16 => 2
  | .float32 => 4
  | .float64 => 8

/-- Strings accepted by `numpy.dtype(...)` in our model: every canonical
name plus a representative set of numpy aliases.  A multi-character token
of a parameter spec is resolved through this table; aliases resolve to a
dtype whose canonical name differs from the alias.  Models the numpy
collaborator of `ParameterInfo.__init__` (line 160). -/
def dtypeAliasTable : List (String × Dtype) :=
  [("bool", .bool), ("b1", .bool),
   ("int8", .int8), ("i1", .int8), ("byte", .int8),
   ("int16", .int16), ("i2", .int16), ("short", .int16),
   ("int32", .int32), ("i4", .int32),
   ("int64", .int64), ("i8", .int64), ("int", .int64), ("long", .int64),
   ("uint8", .uint8), ("u1", .uint8),
   ("uint16", .uint16), ("u2", .uint16),
   ("uint32", .uint32), ("u4", .uint32),
   ("uint64", .uint64), ("u8", .uint64), ("uint", .uint64),
   ("float16", .float16), ("f2", .float16), ("half", .float16),
   ("float32", .float32), ("f4", .float32), ("single", .float32),
   ("float64", .float64), ("f8", .float64), ("float", .float64),
   ("double", .float64)]

/-- Model of `numpy.dtype(t)` on a string: `some d` when recognized,
`none` when numpy would raise `TypeError: data type not understood`. -/
def npDtypeOfString (t : String) : Option Dtype :=
  (dtypeAliasTable.find? (fun e => e.1 == t)).map (fun e => e.2)

/-- Python exception values surfaced by the engine. -/
inductive PyError where
  | typeError (msg : String)
  | valueError (msg : String)
  | exception (msg : String)
  | assertionError
  | keyError
deriving DecidableEq

/-- Model of `numpy.can_cast(src, tgt)` under numpy's default safe-casting
rules, restricted to the twelve supported dtypes (used by
`_guess_routine_from_in_types`, line 541). -/
def canCast : Dtype → Dtype → Bool
  | .bool, _ => true
  | .int8, t => [Dtype.int8, .int16, .int32, .int64, .float16, .float32, .float64].contains t
  | .int16, t => [Dtype.int16, .int32, .int64, .float32, .float64].contains t
  | .int32, t => [Dtype.int32, .int64, .float64].contains t
  | .int64, t => [Dtype.int64].contains t
  | .uint8, t => [Dtype.uint8, .uint16, .uint32, .uint64, .int16, .int32, .int64,
                  .float16, .float32, .float64].contains t
  | .uint16, t => [Dtype.uint16, .uint32, .uint64, .int32, .int64, .float32, .float64].contains t
  | .uint32, t => [Dtype.uint32, .uint64, .int64, .float64].contains t
  | .uint64, t => [Dtype.uint64].contains t
  | .float16, t => [Dtype.float16, .float32, .float64].contains t
  | .float32, t => [Dtype.float32, .float64].contains t
  | .float64, t => [Dtype.float64].contains t

/-- Helper for `pySplitWs`: accumulates maximal runs of non-whitespace
characters (the behaviour of Python `str.split()` with no separator). -/
def splitWsAux : List Char → List Char → List (List Char)
  | [], [] => []
  | [], cur => [cur.reverse]
  | c :: rest, cur =>
    if c.isWhitespace then
      match cur with
      | [] => splitWsAux rest []
      | _ :: _ => cur.reverse :: splitWsAux rest []
    else splitWsAux rest (c :: cur)

/-- Python `str.split()` (whitespace split, no empty tokens), as used by
`ParameterInfo.__init__` (line 150). -/
def pySplitWs (s : String) : List String :=
  (splitWsAux s.toList []).map (fun l => ⟨l⟩)

/-- Helper for `pySplitOn`: split at every separator, keeping empty
pieces (the behaviour of Python `str.split(sep)`). -/
def splitOnAux (sep : Char) : List Char → List Char → List (List Char)
  | [], cur => [cur.reverse]
  | c :: rest, cur =>
    if c == sep then cur.reverse :: splitOnAux sep rest []
    else splitOnAux sep rest (c :: cur)

/-- Python `str.split(sep)` for a single-character separator, as used by
`_get_param_info` (line 176). -/
def pySplitOn (sep : Char) (s : String) : List String :=
  (splitOnAux sep s.toList []).map (fun l => ⟨l⟩)

/-- Python `str.strip()`, as used by `_get_param_info` (line 176). -/
def pyStrip (s : String) : String :=
  ⟨((s.toList.dropWhile Char.isWhitespace).reverse.dropWhile Char.isWhitespace).reverse⟩

/-- A parsed parameter descriptor: the fields of `ParameterInfo`
(`src/elementwise.py`, lines 142-169).  `dtype` is set for concrete
parameters, `ctype` holds the generic one-character tag or the concrete C
type name, and both stay `none` for the `CIndexer` slot. -/
structure Param where
  name : String
  dtype : Option Dtype
  ctype : Option String
  raw : Bool
  is_const : Bool
deriving DecidableEq

/-- Modifier scan of `ParameterInfo.__init__` (lines 165-169): every token
before the final two must be the literal `raw`; the first other token
raises `Exception('Unknown keyward ...')`.  Returns whether `raw` was
seen. -/
def checkMods : List String → Except PyError Bool
  | [] => .ok false
  | m :: rest =>
    if m == "raw" then
      match checkMods rest with
      | .ok _ => .ok true
      | .error e => .error e
    else .error (.exception ("Unknown keyward " ++ m))

/-- Type-token handling of `ParameterInfo.__init__` (lines 155-163):
`CIndexer` passes, a one-character token is a generic tag, any other
token must resolve to a dtype whose canonical name it spells exactly. -/
def parseTypeToken (t : String) : Except PyError (Option Dtype × Option String) :=
  if t == "CIndexer" then .ok (none, none)
  else if t.length == 1 then .ok (none, some t)
  else
    match npDtypeOfString t with
    | none => .error (.typeError "data type not understood")
    | some d =>
      if dtypeName d ≠ t then .error (.valueError ("Wrong type " ++ t))
      else .ok (some d, some (cTypename d))

/-- Body of `ParameterInfo.__init__` on the reversed token list: the
name and type token are the last two tokens, everything before them is a
modifier. -/
def parameterInfoCore (s : String) (is_const : Bool) : List String → Except PyError Param
  | nm :: t :: modsRev =>
    match parseTypeToken t with
    | .error e => .error e
    | .ok (dt, ct) =>
      match checkMods modsRev.reverse with
      | .error e => .error e
      | .ok r => .ok ⟨nm, dt, ct, r, is_const⟩
  | _ => .error (.exception ("Syntax error: " ++ s))

/-- Embedding of `ParameterInfo.__init__` (`src/elementwise.py`, lines
142-169): whitespace-tokenize, require at least two tokens, read the type
token and name from the last two tokens, then scan the modifiers. -/
def parameterInfo (s : String) (is_const : Bool) : Except PyError Param :=
  parameterInfoCore s is_const (pySplitWs s).reverse

/-- Embedding of `_get_param_info` (`src/elementwise.py`, lines 172-176):
an empty string yields the empty tuple, otherwise the stripped string is
comma-split and each entry parsed by `ParameterInfo`. -/
def getParamInfo (s : String) (is_const : Bool) : Except PyError (List Param) :=
  if s.length == 0 then .ok []
  else (pySplitOn ',' (pyStrip s)).mapM (fun e => parameterInfo e is_const)

/-- A device-resident array view (the `cupy.ndarray` collaborator):
element dtype, shape, per-axis byte strides, and device affinity. -/
structure NdView where
  dtype : Dtype
  shape : List Nat
  strides : List Int
  device : Nat
deriving DecidableEq

/-- Modelled from the spec: the iteration-index collaborator
(`carray.Indexer`, not under src/) carries a shape and reports the total
element count of the iteration space. -/
structure Indexer where
  shape : List Nat
deriving DecidableEq

/-- Total element count of the iteration space. -/
def Indexer.size (ix : Indexer) : Nat := ix.shape.prod

/-- Rank of the iteration space. -/
def Indexer.ndim (ix : Indexer) : Nat := ix.shape.length

/-- A kernel-call operand as dispatch sees it: a device array, a scalar
(`python := true` for host `int`/`float`/`bool`, `false` for a numpy
scalar whose dtype is `d`), a host `numpy.ndarray`, or Python `None`
(used as the placeholder that `_broadcast` passes for excluded
operands). -/
inductive Arg where
  | cu (v : NdView)
  | scalar (d : Dtype) (python : Bool)
  | np (d : Dtype) (shape : List Nat)
  | pyNone
deriving DecidableEq

/-- Whether the operand is a `cupy.ndarray`. -/
def Arg.isCu : Arg → Bool
  | .cu _ => true
  | _ => false

/-- Embedding of `_get_ndarray_dtype` (lines 37-39): the dtype for device
arrays, `None` otherwise. -/
def dtypeOfArg : Arg → Option Dtype
  | .cu v => some v.dtype
  | _ => none

/-- Embedding of `_check_args` (lines 65-77): device arrays must live on
the current device, scalars pass, anything else is a `TypeError`. -/
def checkArgs (curDev : Nat) : List Arg → Except PyError Unit
  | [] => .ok ()
  | .cu v :: rest =>
    if v.device == curDev then checkArgs curDev rest
    else .error (.valueError ("Array device must be same as the current device: array device = "
      ++ toString v.device ++ " while current = " ++ toString curDev))
  | .scalar _ _ :: rest => checkArgs curDev rest
  | .np _ _ :: _ => .error (.typeError "Unsupported type numpy.ndarray")
  | .pyNone :: _ => .error (.typeError "Unsupported type NoneType")

/-- Embedding of the explicit host-array rejection loop of
`ElementwiseKernel.__call__` (lines 353-355). -/
def npCheck : List Arg → Except PyError Unit
  | [] => .ok ()
  | .np _ _ :: _ => .error (.typeError "Unsupported type numpy.ndarray")
  | _ :: rest => npCheck rest

/-- Modelled from the spec: the result of the broadcast collaborator
(`cupy.broadcast`, not under src/) — the common iteration shape and the
per-operand values, where array operands are replaced by broadcast
views and every other value is passed through unchanged. -/
structure Brod where
  shape : List Nat
  values : List Arg
deriving DecidableEq

/-- Total element count of the broadcast iteration space. -/
def Brod.size (b : Brod) : Nat := b.shape.prod

/-- Right-alignment padding used by standard broadcasting: missing
leading axes count as extent 1. -/
def padLeft (n : Nat) (l : List Nat) : List Nat :=
  List.replicate (n - l.length) 1 ++ l

/-- One axis of the broadcast shape merge: extents must be equal or one
of them must be 1. -/
def mergeExtent (a b : Nat) : Except PyError Nat :=
  if a == b then .ok a
  else if a == 1 then .ok b
  else if b == 1 then .ok a
  else .error (.valueError "Broadcasting failed")

/-- Merge two right-aligned shapes of equal rank axis by axis. -/
def mergeShapes (a b : List Nat) : Except PyError (List Nat) :=
  (a.zip b).mapM (fun p => mergeExtent p.1 p.2)

/-- Modelled from the spec: the common broadcast shape of a set of
operand shapes (standard numpy broadcasting, spec section 4.4). -/
def cupyBroadcastShape (shapes : List (List Nat)) : Except PyError (List Nat) := do
  let nd := shapes.foldl (fun m s => max m s.length) 0
  shapes.foldlM (fun acc s => mergeShapes acc (padLeft nd s)) (List.replicate nd 1)

/-- A non-copying broadcast view of an array: prepended axes and
replicated axes get stride 0, matching axes keep their stride. -/
def broadcastView (bs : List Nat) (v : NdView) : NdView :=
  let k := bs.length - v.shape.length
  ⟨v.dtype, bs,
   List.replicate k 0 ++
     ((v.shape.zip v.strides).zip (bs.drop k)).map (fun p => if p.1.1 == p.2 then p.1.2 else 0),
   v.device⟩

/-- Broadcasting acts on array operands only; every other value is kept
as-is. -/
def broadcastValue (bs : List Nat) : Arg → Arg
  | .cu v => .cu (broadcastView bs v)
  | a => a

/-- Modelled from the spec: `cupy.broadcast(*xs)` — computes the common
shape from the array operands and turns each array into a broadcast
view. -/
def cupyBroadcast (xs : List Arg) : Except PyError Brod := do
  let bs ← cupyBroadcastShape (xs.filterMap (fun a => match a with
    | .cu v => some v.shape
    | _ => none))
  .ok ⟨bs, xs.map (broadcastValue bs)⟩

/-- Embedding of `_broadcast` (`src/elementwise.py`, lines 225-232):
non-raw array operands are broadcast (everything else is replaced by
`None` for the shape negotiation); if an explicit size is absent and no
operand contributed a shape the loop size is undecided; the returned
value list restores the non-participating operands. -/
def pyBroadcastStage (args : List Arg) (params : List Param) (sizeError : Bool) :
    Except PyError (Brod × List Arg) := do
  let brod ← cupyBroadcast ((params.zip args).map (fun pa =>
    if !pa.1.raw && pa.2.isCu then pa.2 else .pyNone))
  if sizeError && brod.values.all (fun v => v == .pyNone) then
    .error (.valueError "Loop size is Undecided")
  else
    .ok (brod, (brod.values.zip args).map (fun ab =>
      match ab.1 with
      | .pyNone => ab.2
      | a => a))

/-- The binding environment of `_decide_params_type`: `type_dict` as an
insertion-ordered association list (keys are `ParameterInfo.ctype`
values, which can be Python `None` for a `CIndexer` parameter). -/
abbrev TD := List (Option String × Dtype)

/-- Lookup in the binding environment (first binding wins; bindings are
never overwritten). -/
def tdLookup (td : TD) (k : Option String) : Option Dtype :=
  (td.find? (fun e => decide (e.1 = k))).map (fun e => e.2)

/-- Embedding of the output loop of `_decide_params_type` (lines
182-197): every supplied output must be an array; concrete parameters
demand an exact dtype match; a generic tag must agree with its existing
binding or gets bound to the first dtype observed. -/
def outScan : List (Param × Option Dtype) → TD → Except PyError TD
  | [], td => .ok td
  | (_, none) :: _, _ => .error (.typeError "Output arguments must be cupy.ndarray")
  | (p, some a) :: rest, td =>
    match p.dtype with
    | some dt => if a ≠ dt then .error (.typeError "Type is mismatched") else outScan rest td
    | none =>
      match tdLookup td p.ctype with
      | some t => if t ≠ a then .error (.typeError "Type is mismatched") else outScan rest td
      | none => outScan rest (td ++ [(p.ctype, a)])

/-- Embedding of the input loop of `_decide_params_type` (lines
199-216): scalar operands (dtype `None`) are skipped (the source only
records their tag in the unused `unknown_ctype` list); array operands
behave exactly as in the output loop. -/
def inScan : List (Param × Option Dtype) → TD → Except PyError TD
  | [], td => .ok td
  | (_, none) :: rest, td => inScan rest td
  | (p, some a) :: rest, td =>
    match p.dtype with
    | some dt => if a ≠ dt then .error (.typeError "Type is mismatched") else inScan rest td
    | none =>
      match tdLookup td p.ctype with
      | some t => if t ≠ a then .error (.typeError "Type is mismatched") else inScan rest td
      | none => inScan rest (td ++ [(p.ctype, a)])

/-- Embedding of the final tuple construction of `_decide_params_type`
(lines 218-221): a concrete parameter contributes its declared dtype, a
generic one its binding; an unbound tag raises a `KeyError` in the
source. -/
def finalTypes (ps : List Param) (td : TD) : Except PyError (List Dtype) :=
  ps.mapM (fun p =>
    match p.dtype with
    | some dt => .ok dt
    | none =>
      match tdLookup td p.ctype with
      | some t => .ok t
      | none => .error .keyError)

/-- The output-loop stage of `_decide_params_type`: skipped entirely for
an empty output tuple (`if out_args_dtype:`), otherwise the length
assertion followed by the output scan starting from an empty
`type_dict`. -/
def outScanStep (outParams : List Param) (outDts : List (Option Dtype)) : Except PyError TD :=
  if outDts.isEmpty then .ok []
  else if outParams.length ≠ outDts.length then .error .assertionError
  else outScan (outParams.zip outDts) []

/-- Embedding of `_decide_params_type` (`src/elementwise.py`, lines
179-222): scan supplied outputs first, then inputs, threading the
`type_dict` bindings, and read the resolved input/output type
signatures off the final bindings. -/
def decideParamsType (inParams outParams : List Param) (inDts outDts : List (Option Dtype)) :
    Except PyError (List Dtype × List Dtype × TD) :=
  match outScanStep outParams outDts with
  | .error e => .error e
  | .ok td0 =>
    if inParams.length ≠ inDts.length then .error .assertionError
    else
      match inScan (inParams.zip inDts) td0 with
      | .error e => .error e
      | .ok td =>
        match finalTypes inParams td with
        | .error e => .error e
        | .ok its =>
          match finalTypes outParams td with
          | .error e => .error e
          | .ok ots => .ok (its, ots, td)

/-- The inner operand loop of `_reduce_dims` (lines 109-112): scan the
contributing arrays and stop at the first one whose strides break the
contiguity equation for axis pair `(i-1, i)`. -/
def contigAll (arrs : List NdView) (i : Nat) (ext : Nat) : Bool :=
  match arrs with
  | [] => true
  | a :: rest =>
    if a.strides.getD i 0 * (ext : Int) ≠ a.strides.getD (i - 1) 0 then false
    else contigAll rest i ext

/-- One step of the axis-merging loop of `_reduce_dims` (lines 108-115):
when every contributing array is contiguous across axes `i-1, i`, axis
`i` absorbs the extent of axis `i-1`, which is set to 1. -/
def mergeStep (arrs : List NdView) (sh : List Nat) (i : Nat) : List Nat :=
  if contigAll arrs i (sh.getD i 0) then
    (sh.set i (sh.getD i 0 * sh.getD (i - 1) 0)).set (i - 1) 1
  else sh

/-- Embedding of `_reduce_dims` (`src/elementwise.py`, lines 101-132):
no-op for rank at most 1; otherwise merge axes left to right, drop the
resulting extent-1 axes, and rebuild the non-raw array operands as
reshaped views with the corresponding strides. -/
def reduceDims (args : List Arg) (params : List Param) (indexer : Indexer) :
    List Arg × Indexer :=
  if indexer.shape.length ≤ 1 then (args, indexer)
  else
    let pairs := args.zip params
    let arrs : List NdView := pairs.filterMap (fun ap =>
      match ap with
      | (.cu v, p) => if p.raw then none else some v
      | _ => none)
    let sh := (List.range' 1 (indexer.shape.length - 1)).foldl (mergeStep arrs) indexer.shape
    let newShape := sh.filter (fun d => d != 1)
    if newShape = indexer.shape then (args, indexer)
    else
      (pairs.map (fun ap =>
        match ap with
        | (.cu v, p) =>
          if p.raw then .cu v
          else .cu ⟨v.dtype, newShape,
                    ((v.strides.zip sh).filter (fun q => q.2 != 1)).map (fun q => q.1),
                    v.device⟩
        | (a, _) => a),
       ⟨newShape⟩)

/-- Embedding of `_get_inout_args` (lines 135-139): optionally reduce
dimensions; the indexer append is represented by carrying the (possibly
reshaped) indexer alongside the argument list. -/
def getInOutArgs (args : List Arg) (indexer : Indexer) (params : List Param) (rd : Bool) :
    List Arg × Indexer :=
  if rd then reduceDims args params indexer else (args, indexer)

/-- One entry of `_get_args_info` (lines 80-81): the kind, dtype and rank
of an argument. -/
inductive ArgInfo where
  | arr (d : Dtype) (ndim : Nat)
  | hostArr (d : Dtype) (ndim : Nat)
  | scal (d : Dtype)
  | indexer (ndim : Nat)
deriving DecidableEq

/-- Embedding of `_get_args_info` for a single argument (the `pyNone`
arm is unreachable: `None` never survives `_check_args`). -/
def argInfoOf : Arg → ArgInfo
  | .cu v => .arr v.dtype v.shape.length
  | .scalar d _ => .scal d
  | .np d sh => .hostArr d sh.length
  | .pyNone => .scal .bool

/-- C-contiguous byte strides of a freshly allocated array of the given
shape and item size. -/
def cStrides (shape : List Nat) (isz : Nat) : List Int :=
  match shape with
  | [] => []
  | _ :: rest => ((rest.prod * isz : Nat) : Int) :: cStrides rest isz

/-- Modelled from the spec: the allocation collaborator `cupy.empty`
(not under src/) — a fresh C-contiguous array of the requested shape and
dtype on the current device. -/
def cupyEmpty (shape : List Nat) (d : Dtype) (dev : Nat) : NdView :=
  ⟨d, shape, cStrides shape (itemsize d), dev⟩

/-- The checking loop of `_get_out_args` (lines 242-248): every supplied
output must be a device array, and (unless its parameter is raw) its
shape must equal the broadcast shape. -/
def checkOutsAux (outParams : Option (List Param)) (outShape : List Nat) :
    Nat → List Arg → Except PyError (List NdView)
  | _, [] => .ok []
  | i, .cu v :: rest =>
    if v.shape ≠ outShape
        && (match outParams with
            | none => true
            | some ps => !(ps.getD i ⟨"", none, none, false, false⟩).raw) then
      .error (.valueError "Out shape is mismatched")
    else
      match checkOutsAux outParams outShape (i + 1) rest with
      | .ok vs => .ok (v :: vs)
      | .error e => .error e
  | _, _ :: _ => .error (.typeError "Output arguments type must be cupy.ndarray")

/-- Embedding of `_get_out_args` (`src/elementwise.py`, lines 235-249):
with no supplied outputs, allocate one array per resolved output type
(rejecting raw output parameters, whose size is undecided); otherwise
validate the supplied outputs and return them unchanged.  The `in_args`
parameter of the source is unused in its body and omitted here. -/
def getOutArgs (outArgs : List Arg) (outTypes : List Dtype) (outShape : List Nat)
    (outParams : Option (List Param)) (curDev : Nat) : Except PyError (List NdView) :=
  if outArgs.isEmpty then
    if (match outParams with
        | some ps => ps.any (fun p => p.raw)
        | none => false) then
      .error (.valueError "Output array size is Undecided")
    else .ok (outTypes.map (fun t => cupyEmpty outShape t curDev))
  else checkOutsAux outParams outShape 0 outArgs

/-- The parameter descriptor of the implicit iteration-index slot
(`_get_param_info('CIndexer _ind')`, line 318). -/
def indexerParam : Param := ⟨"_ind", none, none, false, false⟩

/-- The fields of an `ElementwiseKernel` object (lines 312-327). -/
structure EKernel where
  in_params : List Param
  out_params : List Param
  params : List Param
  operation : String
  name : String
  reduce_dims : Bool
  preamble : String
deriving DecidableEq

/-- Number of input parameters (`self.nin`). -/
def EKernel.nin (ek : EKernel) : Nat := ek.in_params.length

/-- Number of output parameters (`self.nout`). -/
def EKernel.nout (ek : EKernel) : Nat := ek.out_params.length

/-- Embedding of `ElementwiseKernel.__init__` (`src/elementwise.py`,
lines 312-327): parse both parameter lists, append the indexer slot, and
reject the reserved parameter name `i` (source message:
`Can not use 'i' as a parameter name`). -/
def elementwiseKernelInit (inP outP operation nm : String) (rd : Bool) (pre : String) :
    Except PyError EKernel := do
  let ips ← getParamInfo inP true
  let ops ← getParamInfo outP false
  let rest ← getParamInfo "CIndexer _ind" false
  if (ips ++ ops).any (fun p => p.name == "i") then
    .error (.valueError "Can not use i as a parameter name")
  else
    .ok ⟨ips, ops, ips ++ ops ++ rest, operation, nm, rd, pre⟩

/-- The value returned by a call: the single output array when exactly
one output exists, the tuple of outputs otherwise (lines 370-372 and
519-521). -/
inductive Ret where
  | one (a : NdView)
  | tup (arrs : List NdView)
deriving DecidableEq

/-- The `ret = out_args; if len(ret) == 1: ret = ret[0]` pattern shared
by both call paths. -/
def mkRet : List NdView → Ret
  | [o] => .one o
  | os => .tup os

/-- Observable kernel work of a call: consulting the compilation cache
(which on a miss synthesizes source and invokes the native compiler) and
launching the kernel over the reduced iteration space. -/
inductive Event where
  | getKernel (argsInfo : List ArgInfo)
  | launch (sz : Nat)
deriving DecidableEq

/-- Everything a call computes before deciding whether to launch: the
broadcast result, the cast input arguments, the resolved (or validated)
output arrays, and the indexer. -/
structure PrepResult where
  brod : Brod
  inArgs : List Arg
  outs : List NdView
  indexer : Indexer
deriving DecidableEq

/-- Embedding of `ElementwiseKernel.__call__` up to and including output
allocation and indexer construction (`src/elementwise.py`, lines
348-377): arity check, host-array rejection, `_check_args`,
`_broadcast`, `_decide_params_type`, scalar casting, `_get_out_args`. -/
def elementwisePrep (ek : EKernel) (curDev : Nat) (args : List Arg) (n : Option Nat) :
    Except PyError PrepResult := do
  if ¬(args.length = ek.nin ∨ args.length = ek.nin + ek.nout) then
    .error (.typeError ("Wrong number of arguments for " ++ ek.name))
  else do
    npCheck args
    checkArgs curDev args
    let bv ← pyBroadcastStage args ek.params n.isNone
    let inArgs0 := bv.2.take ek.nin
    let outArgs0 := bv.2.drop ek.nin
    let tys ← decideParamsType ek.in_params ek.out_params
      (inArgs0.map dtypeOfArg) (outArgs0.map dtypeOfArg)
    let inArgs := (inArgs0.zip tys.1).map (fun xt =>
      match xt.1 with
      | .cu v => .cu v
      | _ => .scalar xt.2 false)
    let outs ← getOutArgs outArgs0 tys.2.1 bv.1.shape (some ek.out_params) curDev
    let indexer : Indexer := match n with
      | none => ⟨bv.1.shape⟩
      | some k => ⟨[k]⟩
    .ok ⟨bv.1, inArgs, outs, indexer⟩

/-- Embedding of `ElementwiseKernel.__call__` (`src/elementwise.py`,
lines 329-389).  A zero-sized broadcast space returns the outputs with
no kernel work; otherwise `_get_inout_args`/`_get_args_info` run and the
memoized kernel is fetched and launched. -/
def elementwiseCall (ek : EKernel) (curDev : Nat) (args : List Arg) (n : Option Nat) :
    Except PyError (Ret × List Event) := do
  let pr ← elementwisePrep ek curDev args n
  let ret := mkRet pr.outs
  if pr.brod.size = 0 then .ok (ret, [])
  else
    let io := getInOutArgs (pr.inArgs ++ pr.outs.map Arg.cu) pr.indexer ek.params ek.reduce_dims
    let argsInfo := io.1.map argInfoOf ++ [ArgInfo.indexer io.2.ndim]
    .ok (ret, [.getKernel argsInfo, .launch io.2.size])

/-- One registered routine of a universal function: declared input
types, declared output types, and the routine body (possibly absent). -/
structure UOp where
  inTypes : List Dtype
  outTypes : List Dtype
  routine : Option String
deriving DecidableEq

/-- The fields of a `ufunc` object (lines 442-458). -/
structure Ufunc where
  name : String
  nin : Nat
  nout : Nat
  ops : List UOp
  preamble : String
deriving DecidableEq

/-- Total number of arguments (`self.nargs`). -/
def Ufunc.nargs (u : Ufunc) : Nat := u.nin + u.nout

/-- The parameter list a ufunc builds in `__init__` (lines 450-457):
`T in0..`, `T out0..`, plus the indexer slot. -/
def ufuncParams (u : Ufunc) : List Param :=
  ((List.range u.nin).map (fun i => (⟨"in" ++ toString i, none, some "T", false, true⟩ : Param))) ++
  ((List.range u.nout).map (fun i => (⟨"out" ++ toString i, none, some "T", false, false⟩ : Param))) ++
  [indexerParam]

/-- The per-entry predicate of `_guess_routine_from_in_types` (lines
540-543): every supplied input type must safely cast to the declared
input type. -/
def matchInTypes (inDts : List Dtype) (op : UOp) : Bool :=
  (inDts.zip op.inTypes).all (fun p => canCast p.1 p.2)

/-- Embedding of `_guess_routine_from_in_types` (lines 539-544): first
castable entry in declaration order, else `None`. -/
def guessRoutineFromInTypes (ops : List UOp) (inDts : List Dtype) : Option UOp :=
  ops.find? (matchInTypes inDts)

/-- The per-entry predicate of `_guess_routine_from_dtype` (lines
546-550): every declared output type equals the requested dtype. -/
def outTypesAll (dt : Dtype) (op : UOp) : Bool :=
  op.outTypes.all (fun t => t == dt)

/-- Embedding of `_guess_routine_from_dtype` (lines 546-550): first
entry whose outputs all equal the requested dtype, else `None`. -/
def guessRoutineFromDtype (ops : List UOp) (dt : Dtype) : Option UOp :=
  ops.find? (outTypesAll dt)

/-- A key of the `_routine_table` memo: the tuple of concrete input
dtypes, or the requested dtype. -/
abbrev RKey := Sum (List Dtype) Dtype

/-- The `_routine_table` memo (line 458): maps a key to the previously
resolved entry (`none` records a resolution failure). -/
abbrev RTable := List (RKey × Option UOp)

/-- Lookup in the routine memo. -/
def rtLookup (tbl : RTable) (k : RKey) : Option (Option UOp) :=
  (tbl.find? (fun e => decide (e.1 = k))).map (fun e => e.2)

/-- The key `_guess_routine` uses (line 553-556): the tuple of input
dtypes when no dtype was requested, the requested dtype otherwise. -/
def keyOf (inDts : List Dtype) : Option Dtype → RKey
  | none => .inl inDts
  | some d => .inr d

/-- The declaration-order scan `_guess_routine` falls back to on a memo
miss (lines 559-562), dispatched on the key kind. -/
def scanOf (u : Ufunc) : RKey → Option UOp
  | .inl ds => guessRoutineFromInTypes u.ops ds
  | .inr d => guessRoutineFromDtype u.ops d

/-- Embedding of `_guess_routine` (`src/elementwise.py`, lines 552-566):
consult the memo, fall back to the declaration-order scan, and raise a
`TypeError` naming the operation when nothing matches.  The memo
write-back of the source does not affect the result of a single call and
is not represented. -/
def guessRoutine (u : Ufunc) (tbl : RTable) (inDts : List Dtype) (dt? : Option Dtype) :
    Except PyError UOp :=
  match (match rtLookup tbl (keyOf inDts dt?) with
    | some v => v
    | none => scanOf u (keyOf inDts dt?)) with
  | some o => .ok o
  | none => .error (.typeError ("Wrong type of arguments for " ++ u.name))

/-- The dtype of an operand as `_guess_routine` reads it (`i.dtype`);
the `np`/`pyNone` arms are unreachable because `_check_args` runs
first. -/
def argDtype : Arg → Dtype
  | .cu v => v.dtype
  | .scalar d _ => d
  | .np d _ => d
  | .pyNone => .bool

/-- Embedding of `ufunc.__call__` up to and including output resolution
(`src/elementwise.py`, lines 478-517): arity check, broadcast over all
positional arguments, promotion of host scalars, `out` keyword handling,
`_check_args`, `_guess_routine`, scalar casting, `_get_out_args`. -/
def ufuncPrep (u : Ufunc) (tbl : RTable) (curDev : Nat) (args : List Arg)
    (out : Option Arg) (dt? : Option Dtype) : Except PyError PrepResult := do
  if ¬(args.length = u.nin ∨ args.length = u.nargs) then
    .error (.typeError ("Wrong number of arguments for " ++ u.name))
  else do
    let brod ← cupyBroadcast args
    let inArgs0 := (brod.values.take u.nin).map (fun a =>
      match a with
      | .scalar d true => Arg.scalar d false
      | a => a)
    let outArgs0 := args.drop u.nin
    let outArgs1 ←
      match out with
      | none => (.ok outArgs0 : Except PyError (List Arg))
      | some o =>
        if outArgs0.length ≠ 0 then
          .error (.valueError "cannot specify out as both a positional and keyword argument")
        else .ok [o]
    checkArgs curDev (inArgs0 ++ outArgs1)
    let op ← guessRoutine u tbl (inArgs0.map argDtype) dt?
    let inArgs := (inArgs0.zip op.inTypes).map (fun xt =>
      match xt.1 with
      | .cu v => .cu v
      | _ => .scalar xt.2 false)
    let outs ← getOutArgs outArgs1 op.outTypes brod.shape none curDev
    .ok ⟨brod, inArgs, outs, ⟨brod.shape⟩⟩

/-- Embedding of `ufunc.__call__` (`src/elementwise.py`, lines 478-537).
A broadcast shape containing a zero extent returns the outputs with no
kernel work; otherwise dimension reduction always runs and the memoized
ufunc kernel is fetched and launched. -/
def ufuncCall (u : Ufunc) (tbl : RTable) (curDev : Nat) (args : List Arg)
    (out : Option Arg) (dt? : Option Dtype) : Except PyError (Ret × List Event) := do
  let pr ← ufuncPrep u tbl curDev args out dt?
  let ret := mkRet pr.outs
  if (0 : Nat) ∈ pr.brod.shape then .ok (ret, [])
  else
    let io := getInOutArgs (pr.inArgs ++ pr.outs.map Arg.cu) pr.indexer (ufuncParams u) true
    let argsInfo := io.1.map argInfoOf ++ [ArgInfo.indexer io.2.ndim]
    .ok (ret, [.getKernel argsInfo, .launch io.2.size])

/-- The full memoization key of `_get_elementwise_kernel` (lines
252-255): per-argument info, resolved type bindings, parameter list,
operation body, kernel name and preamble. -/
structure ArgKey where
  argsInfo : List ArgInfo
  types : TD
  params : List Param
  operation : String
  name : String
  preamble : String
deriving DecidableEq

/-- State of the per-device compilation cache of `util.memoize` /
`cupy.cuda.device.memoize` (`src/cuda/device.py`, lines 133-155):
the per-device memo dictionaries flattened into one table keyed by
`(device id, argument key)`, a counter supplying the identity of each
freshly compiled kernel object (each run of kernel-source synthesis plus
native compilation yields a new handle), and the number of compilations
performed. -/
structure MemoState where
  table : List ((Nat × ArgKey) × Nat)
  counter : Nat
  compiles : Nat
deriving DecidableEq

/-- Lookup of `f._cupy_dev_memo[Device().id].get(arg_key, None)`. -/
def memoLookup (σ : MemoState) (dev : Nat) (k : ArgKey) : Option Nat :=
  (σ.table.find? (fun e => e.1 == (dev, k))).map (fun e => e.2)

/-- Embedding of one invocation of the memoized
`_get_elementwise_kernel` under the `memoize` decorator of
`src/cuda/device.py` (lines 133-155): a hit returns the stored handle
unchanged; a miss synthesizes and compiles (one fresh handle, one
compilation) and stores the result under the current device and key. -/
def memoizedGetKernel (dev : Nat) (k : ArgKey) (σ : MemoState) : Nat × MemoState :=
  match memoLookup σ dev k with
  | some h => (h, σ)
  | none => (σ.counter, ⟨σ.table ++ [((dev, k), σ.counter)], σ.counter + 1, σ.compiles + 1⟩)

/-- Invariant of every reachable cache state: entries have pairwise
distinct keys and pairwise distinct handles, and every stored handle
precedes the counter. -/
def memoInv (σ : MemoState) : Prop :=
  σ.table.Pairwise (fun e1 e2 => e1.1 ≠ e2.1 ∧ e1.2 ≠ e2.2) ∧
  ∀ e ∈ σ.table, e.2 < σ.counter

/-- A concrete memoization key used by the cache witness. -/
def demoKey : ArgKey :=
  ⟨[.arr .float32 1, .arr .float32 1, .indexer 1], [(some "T", .float32)],
   [⟨"x", none, some "T", false, true⟩, ⟨"y", none, some "T", false, false⟩, indexerParam],
   "y = x", "kernel", ""⟩

/-- Coherence of the `_routine_table` memo: every stored entry equals
the result of the declaration-order scan for its key.  This is an
invariant of the source, whose table starts empty and is only ever
populated with scan results. -/
def tableCoherent (u : Ufunc) (tbl : RTable) : Prop :=
  ∀ e ∈ tbl, e.2 = scanOf u e.1

/-- Demo routine entry over int32 inputs. -/
def opIntInt : UOp := ⟨[.int32, .int32], [.int32], some "out0 = in0 + in1"⟩

/-- Demo routine entry over float64 inputs. -/
def opFloatFloat : UOp := ⟨[.float64, .float64], [.float64], some "out0 = in0 + in1"⟩

/-- Demo two-signature ufunc used by the routine-selection witness. -/
def uAddDemo : Ufunc := ⟨"add", 2, 1, [opIntInt, opFloatFloat], ""⟩

/-- A C-contiguous 2x3 float32 view used by the reduction witness. -/
def demoContig : NdView := ⟨.float32, [2, 3], [12, 4], 0⟩

/-- A non-contiguous 2x3 float32 view used by the reduction witness. -/
def demoStrided : NdView := ⟨.float32, [2, 3], [100, 4], 0⟩

/-- Whether the operand is a host scalar or numpy scalar. -/
def Arg.isScalar : Arg → Bool
  | .scalar _ _ => true
  | _ => false

/-- Whether the operand is a device array resident on the given
device. -/
def Arg.onDevice (dev : Nat) : Arg → Bool
  | .cu v => v.device == dev
  | _ => false

/-- A raw-parameter-only demo kernel used to refute C6 as stated. -/
def ekRawDemo : EKernel :=
  ⟨[⟨"x", none, some "T", true, true⟩], [⟨"y", none, some "T", true, false⟩],
   [⟨"x", none, some "T", true, true⟩, ⟨"y", none, some "T", true, false⟩, indexerParam],
   "y = x", "kernel", true, ""⟩

/-- The observation sequence of a scan, in scan order: one entry
`(tag, dtype)` for every generic parameter paired with a concrete
(array) operand dtype. -/
def obsOf (pairs : List (Param × Option Dtype)) : List (Option String × Dtype) :=
  pairs.filterMap (fun pa => match pa.1.dtype, pa.2 with
    | none, some d => some (pa.1.ctype, d)
    | _, _ => none)

/-- The first observed dtype for a tag, following the spec's reading of
type resolution: outputs are scanned before inputs and the first
concrete dtype observed binds the tag. -/
def firstObs (obs : List (Option String × Dtype)) (k : Option String) : Option Dtype :=
  (obs.find? (fun e => decide (e.1 = k))).map (fun e => e.2)

/-- Left-biased choice on optional dtypes (`a` wins when present). -/
def orE (a b : Option Dtype) : Option Dtype :=
  match a with
  | some x => some x
  | none => b

/-- A two-output (divmod-style) demo ufunc used to refute C10 as
stated. -/
def uDivmodDemo : Ufunc :=
  ⟨"cupy_divmod", 2, 2, [⟨[.int32, .int32], [.int32, .int32], some "r"⟩], ""⟩

/-- A single-output demo elementwise kernel used by the C10 witness. -/
def ekOneOut : EKernel :=
  ⟨[⟨"x", none, some "T", false, true⟩], [⟨"y", none, some "T", false, false⟩],
   [⟨"x", none, some "T", false, true⟩, ⟨"y", none, some "T", false, false⟩, indexerParam],
   "y = x", "kernel", true, ""⟩

theorem memoLookup_mem {σ : MemoState} {dev : Nat} {k : ArgKey} {h : Nat}
    (hl : memoLookup σ dev k = some h) : ((dev, k), h) ∈ σ.table := by
  unfold memoLookup at hl
  cases hf : σ.table.find? (fun e => e.1 == (dev, k)) with
  | none => rw [hf] at hl; simp at hl
  | some e =>
    rw [hf] at hl
    simp at hl
    have hm := List.mem_of_find?_eq_some hf
    have hp := List.find?_some hf
    have he1 : e.1 = (dev, k) := by simpa using hp
    obtain ⟨e1, e2⟩ := e
    simp at he1 hl
    rw [he1, hl] at hm
    exact hm

theorem memoLookup_none_find {σ : MemoState} {dev : Nat} {k : ArgKey}
    (hl : memoLookup σ dev k = none) :
    σ.table.find? (fun e => e.1 == (dev, k)) = none := by
  unfold memoLookup at hl
  cases hf : σ.table.find? (fun e => e.1 == (dev, k)) with
  | none => rfl
  | some e => rw [hf] at hl; simp at hl

theorem memoizedGetKernel_miss {σ : MemoState} {d : Nat} {k : ArgKey}
    (hl : memoLookup σ d k = none) :
    memoizedGetKernel d k σ =
      (σ.counter, ⟨σ.table ++ [((d, k), σ.counter)], σ.counter + 1, σ.compiles + 1⟩) := by
  simp [memoizedGetKernel, hl]

theorem memoizedGetKernel_hit {σ : MemoState} {d : Nat} {k : ArgKey} {h : Nat}
    (hl : memoLookup σ d k = some h) :
    memoizedGetKernel d k σ = (h, σ) := by
  simp [memoizedGetKernel, hl]

theorem memoInv_handle_lt {σ : MemoState} {e : (Nat × ArgKey) × Nat}
    (hinv : memoInv σ) (hm : e ∈ σ.table) : e.2 < σ.counter :=
  hinv.2 e hm

theorem memoInv_handles_distinct {σ : MemoState} {d₁ d₂ : Nat} {k₁ k₂ : ArgKey} {h₁ h₂ : Nat}
    (hinv : memoInv σ) (hm₁ : ((d₁, k₁), h₁) ∈ σ.table) (hm₂ : ((d₂, k₂), h₂) ∈ σ.table)
    (hk : (d₁, k₁) ≠ (d₂, k₂)) : h₁ ≠ h₂ := by
  have hsym : Symmetric (fun (e1 e2 : (Nat × ArgKey) × Nat) => e1.1 ≠ e2.1 ∧ e1.2 ≠ e2.2) :=
    fun _ _ hab => ⟨hab.1.symm, hab.2.symm⟩
  have hne : ((d₁, k₁), h₁) ≠ ((d₂, k₂), h₂) := by
    intro heq
    exact hk (congrArg Prod.fst heq)
  exact (hinv.1.forall hsym hm₁ hm₂ hne).2

/-- C1: two invocations of the same memoized kernel construction on the
same device with equal full argument keys (per-argument kind/dtype/ndim,
resolved type signature, parameter list, operation body, kernel name,
preamble) return the identical compiled kernel handle, and kernel-source
synthesis plus native compilation run exactly once across both calls;
two invocations made while different devices are current never return
the same handle, even for equal keys. -/
theorem claim_cache_per_device_reuse
    (σ : MemoState) (d₁ d₂ : Nat) (k₁ k₂ : ArgKey) (hinv : memoInv σ) :
    (memoLookup σ d₁ k₁ = none →
      (memoizedGetKernel d₁ k₁ (memoizedGetKernel d₁ k₁ σ).2).1 =
        (memoizedGetKernel d₁ k₁ σ).1 ∧
      (memoizedGetKernel d₁ k₁ (memoizedGetKernel d₁ k₁ σ).2).2.compiles =
        σ.compiles + 1) ∧
    (d₁ ≠ d₂ →
      (memoizedGetKernel d₂ k₂ (memoizedGetKernel d₁ k₁ σ).2).1 ≠
        (memoizedGetKernel d₁ k₁ σ).1) := by
  constructor
  · intro hmiss
    have hl2 : memoLookup
        ⟨σ.table ++ [((d₁, k₁), σ.counter)], σ.counter + 1, σ.compiles + 1⟩ d₁ k₁ =
        some σ.counter := by
      unfold memoLookup
      rw [List.find?_append, memoLookup_none_find hmiss]
      simp
    simp [memoizedGetKernel_miss hmiss, memoizedGetKernel_hit hl2]
  · intro hd
    cases h1 : memoLookup σ d₁ k₁ with
    | some h₁ =>
      cases h2 : memoLookup σ d₂ k₂ with
      | some h₂ =>
        have hne : h₂ ≠ h₁ :=
          memoInv_handles_distinct hinv (memoLookup_mem h2) (memoLookup_mem h1)
            (fun heq => hd (congrArg Prod.fst heq).symm)
        simp [memoizedGetKernel_hit h1, memoizedGetKernel_hit h2, hne]
      | none =>
        have hlt : h₁ < σ.counter := memoInv_handle_lt hinv (memoLookup_mem h1)
        simp [memoizedGetKernel_hit h1, memoizedGetKernel_miss h2]
        exact (Nat.ne_of_lt hlt).symm
    | none =>
      have hm1 := memoizedGetKernel_miss h1
      cases h2 : memoLookup
          ⟨σ.table ++ [((d₁, k₁), σ.counter)], σ.counter + 1, σ.compiles + 1⟩ d₂ k₂ with
      | some h₂ =>
        have hmem := memoLookup_mem h2
        simp at hmem
        have hne : h₂ ≠ σ.counter := by
          rcases hmem with hmem | hmem
          · exact Nat.ne_of_lt (hinv.2 _ hmem)
          · exact absurd hmem.1.1 (Ne.symm hd)
        simp [hm1, memoizedGetKernel_hit h2, hne]
      | none =>
        simp [hm1, memoizedGetKernel_miss h2]

/-- Witness for C1 at the empty cache, devices 0 and 1, and a concrete
key. -/
theorem claim_cache_per_device_reuse_witness :
    ((memoizedGetKernel 0 demoKey (memoizedGetKernel 0 demoKey ⟨[], 0, 0⟩).2).1 =
        (memoizedGetKernel 0 demoKey ⟨[], 0, 0⟩).1 ∧
      (memoizedGetKernel 0 demoKey (memoizedGetKernel 0 demoKey ⟨[], 0, 0⟩).2).2.compiles =
        (0 : Nat) + 1) ∧
    (memoizedGetKernel 1 demoKey (memoizedGetKernel 0 demoKey ⟨[], 0, 0⟩).2).1 ≠
      (memoizedGetKernel 0 demoKey ⟨[], 0, 0⟩).1 :=
  ⟨(claim_cache_per_device_reuse ⟨[], 0, 0⟩ 0 1 demoKey demoKey
      (by constructor <;> simp [memoInv, List.Pairwise.nil])).1 (by decide),
   (claim_cache_per_device_reuse ⟨[], 0, 0⟩ 0 1 demoKey demoKey
      (by constructor <;> simp [memoInv, List.Pairwise.nil])).2 (by decide)⟩

theorem find?_eq_some_iff_first {α : Type} (p : α → Bool) (l : List α) (a : α) :
    l.find? p = some a ↔
      ∃ l1 l2, l = l1 ++ a :: l2 ∧ p a = true ∧ ∀ x ∈ l1, p x = false := by
  constructor
  · intro h
    induction l with
    | nil => simp at h
    | cons b l ih =>
      cases hp : p b with
      | true =>
        rw [List.find?_cons_of_pos _ hp] at h
        obtain rfl : b = a := by simpa using h
        exact ⟨[], l, rfl, hp, by simp⟩
      | false =>
        rw [List.find?_cons_of_neg _ (by simp [hp])] at h
        obtain ⟨l1, l2, rfl, hpa, hneg⟩ := ih h
        exact ⟨b :: l1, l2, rfl, hpa, by
          intro x hx
          rcases List.mem_cons.mp hx with rfl | hx
          · exact hp
          · exact hneg x hx⟩
  · rintro ⟨l1, l2, rfl, hpa, hneg⟩
    induction l1 with
    | nil => simpa using List.find?_cons_of_pos _ hpa
    | cons b l1 ih =>
      rw [List.cons_append, List.find?_cons_of_neg _ (by simp [hneg b (by simp)])]
      exact ih (fun x hx => hneg x (List.mem_cons_of_mem b hx))


theorem rtLookup_coherent {u : Ufunc} {tbl : RTable} {k : RKey} {v : Option UOp}
    (hco : tableCoherent u tbl) (hl : rtLookup tbl k = some v) :
    v = scanOf u k := by
  unfold rtLookup at hl
  cases hf : tbl.find? (fun e => decide (e.1 = k)) with
  | none => rw [hf] at hl; simp at hl
  | some e =>
    rw [hf] at hl
    simp at hl
    have hm := List.mem_of_find?_eq_some hf
    have hp : e.1 = k := by
      have hp0 := List.find?_some hf
      simp at hp0
      exact hp0
    rw [← hl, hco e hm, hp]

theorem guessRoutine_eq_scan {u : Ufunc} {tbl : RTable} (inDts : List Dtype)
    (dt? : Option Dtype) (hco : tableCoherent u tbl) :
    guessRoutine u tbl inDts dt? =
      (match scanOf u (keyOf inDts dt?) with
      | some o => .ok o
      | none => .error (.typeError ("Wrong type of arguments for " ++ u.name))) := by
  unfold guessRoutine
  cases hl : rtLookup tbl (keyOf inDts dt?) with
  | none => rfl
  | some v => rw [rtLookup_coherent hco hl]

/-- C2: with a coherent memo table, a ufunc call without an explicit
dtype selects exactly the first registered entry, in declaration order,
whose declared input types are all reachable from the supplied input
dtypes by a safe numpy cast; with an explicit dtype it selects exactly
the first entry all of whose declared output types equal that dtype; and
when no entry matches, the call fails with a `TypeError` naming the
operation. -/
theorem claim_routine_first_match
    (u : Ufunc) (tbl : RTable) (inDts : List Dtype) (hco : tableCoherent u tbl) :
    (∀ op, guessRoutine u tbl inDts none = .ok op ↔
      ∃ l1 l2, u.ops = l1 ++ op :: l2 ∧ matchInTypes inDts op = true ∧
        ∀ x ∈ l1, matchInTypes inDts x = false) ∧
    (∀ dt op, guessRoutine u tbl inDts (some dt) = .ok op ↔
      ∃ l1 l2, u.ops = l1 ++ op :: l2 ∧ outTypesAll dt op = true ∧
        ∀ x ∈ l1, outTypesAll dt x = false) ∧
    ((∀ x ∈ u.ops, matchInTypes inDts x = false) →
      guessRoutine u tbl inDts none =
        .error (.typeError ("Wrong type of arguments for " ++ u.name))) ∧
    (∀ dt, (∀ x ∈ u.ops, outTypesAll dt x = false) →
      guessRoutine u tbl inDts (some dt) =
        .error (.typeError ("Wrong type of arguments for " ++ u.name))) := by
  refine ⟨?_, ?_, ?_, ?_⟩
  · intro op
    rw [guessRoutine_eq_scan inDts none hco]
    show (match u.ops.find? (matchInTypes inDts) with
      | some o => Except.ok o
      | none => Except.error (PyError.typeError ("Wrong type of arguments for " ++ u.name))) =
        .ok op ↔ _
    cases hf : u.ops.find? (matchInTypes inDts) with
    | none =>
      constructor
      · intro h; simp at h
      · intro h
        rw [(find?_eq_some_iff_first (matchInTypes inDts) u.ops op).mpr h] at hf
        simp at hf
    | some o =>
      constructor
      · intro h
        have ho : o = op := by simpa using h
        subst ho
        exact (find?_eq_some_iff_first (matchInTypes inDts) u.ops o).mp hf
      · intro h
        rw [(find?_eq_some_iff_first (matchInTypes inDts) u.ops op).mpr h] at hf
        obtain rfl : op = o := by simpa using hf
        rfl
  · intro dt op
    rw [guessRoutine_eq_scan inDts (some dt) hco]
    show (match u.ops.find? (outTypesAll dt) with
      | some o => Except.ok o
      | none => Except.error (PyError.typeError ("Wrong type of arguments for " ++ u.name))) =
        .ok op ↔ _
    cases hf : u.ops.find? (outTypesAll dt) with
    | none =>
      constructor
      · intro h; simp at h
      · intro h
        rw [(find?_eq_some_iff_first (outTypesAll dt) u.ops op).mpr h] at hf
        simp at hf
    | some o =>
      constructor
      · intro h
        have ho : o = op := by simpa using h
        subst ho
        exact (find?_eq_some_iff_first (outTypesAll dt) u.ops o).mp hf
      · intro h
        rw [(find?_eq_some_iff_first (outTypesAll dt) u.ops op).mpr h] at hf
        obtain rfl : op = o := by simpa using hf
        rfl
  · intro hall
    rw [guessRoutine_eq_scan inDts none hco]
    show (match u.ops.find? (matchInTypes inDts) with
      | some o => Except.ok o
      | none => Except.error (PyError.typeError ("Wrong type of arguments for " ++ u.name))) = _
    rw [List.find?_eq_none.mpr (fun x hx => by simp [hall x hx])]
  · intro dt hall
    rw [guessRoutine_eq_scan inDts (some dt) hco]
    show (match u.ops.find? (outTypesAll dt) with
      | some o => Except.ok o
      | none => Except.error (PyError.typeError ("Wrong type of arguments for " ++ u.name))) = _
    rw [List.find?_eq_none.mpr (fun x hx => by simp [hall x hx])]

/-- Witness for C2: a mixed int32/float64 call selects the float
signature as the first castable entry, and an uncastable call fails with
the `TypeError` naming the ufunc. -/
theorem claim_routine_first_match_witness :
    (∃ l1 l2, uAddDemo.ops = l1 ++ opFloatFloat :: l2 ∧
      matchInTypes [.int32, .float64] opFloatFloat = true ∧
      ∀ x ∈ l1, matchInTypes [.int32, .float64] x = false) ∧
    guessRoutine uAddDemo [] [.uint64, .int32] none =
      .error (.typeError ("Wrong type of arguments for " ++ uAddDemo.name)) :=
  ⟨((claim_routine_first_match uAddDemo [] [.int32, .float64]
      (by intro e he; simp at he)).1 opFloatFloat).mp (by decide),
   (claim_routine_first_match uAddDemo [] [.uint64, .int32]
      (by intro e he; simp at he)).2.2.1 (by decide)⟩

theorem contigAll_iff (arrs : List NdView) (i ext : Nat) :
    contigAll arrs i ext = true ↔
      ∀ a ∈ arrs, a.strides.getD i 0 * (ext : Int) = a.strides.getD (i - 1) 0 := by
  induction arrs with
  | nil => simp [contigAll]
  | cons a rest ih =>
    by_cases h : a.strides.getD i 0 * (ext : Int) ≠ a.strides.getD (i - 1) 0
    · simp only [contigAll, if_pos h]
      constructor
      · intro hfalse; exact absurd hfalse (by simp)
      · intro hall; exact absurd (hall a (by simp)) h
    · push_neg at h
      simp only [contigAll, if_neg (not_ne_iff.mpr h)]
      rw [ih]
      constructor
      · intro hall
        intro x hx
        rcases List.mem_cons.mp hx with rfl | hx
        · exact h
        · exact hall x hx
      · intro hall x hx
        exact hall x (List.mem_cons_of_mem a hx)

theorem mergeStep_length (arrs : List NdView) (sh : List Nat) (i : Nat) :
    (mergeStep arrs sh i).length = sh.length := by
  unfold mergeStep
  split
  · simp
  · rfl

theorem merge_prod : ∀ (i : Nat) (sh : List Nat), 1 ≤ i → i < sh.length →
    ((sh.set i (sh.getD i 0 * sh.getD (i - 1) 0)).set (i - 1) 1).prod = sh.prod := by
  intro i
  induction i with
  | zero => intro sh h1 _; exact absurd h1 (by omega)
  | succ j ih =>
    intro sh h1 h2
    cases sh with
    | nil => simp at h2
    | cons x rest =>
      cases j with
      | zero =>
        cases rest with
        | nil => simp at h2
        | cons y rest2 =>
          simp [List.getD_cons_succ, List.getD_cons_zero]
          ring
      | succ j2 =>
        have hih := ih rest (by omega) (by
          simp at h2
          omega)
        simp only [Nat.add_sub_cancel] at hih ⊢
        simp only [List.set_cons_succ, List.getD_cons_succ, List.prod_cons]
        rw [hih]

theorem fold_merge_prod (arrs : List NdView) :
    ∀ (l : List Nat) (sh : List Nat), (∀ i ∈ l, 1 ≤ i ∧ i < sh.length) →
      (l.foldl (mergeStep arrs) sh).prod = sh.prod := by
  intro l
  induction l with
  | nil => intro sh _; rfl
  | cons i rest ih =>
    intro sh hb
    have hi := hb i (by simp)
    have hstep : (mergeStep arrs sh i).prod = sh.prod := by
      unfold mergeStep
      split
      · exact merge_prod i sh hi.1 hi.2
      · rfl
    rw [List.foldl_cons, ih (mergeStep arrs sh i)
      (fun j hj => by rw [mergeStep_length]; exact hb j (List.mem_cons_of_mem i hj)), hstep]

theorem prod_filter_ne_one (l : List Nat) : (l.filter (fun d => d != 1)).prod = l.prod := by
  induction l with
  | nil => rfl
  | cons d rest ih =>
    by_cases h : d = 1
    · subst h
      simp [ih]
    · rw [List.filter_cons_of_pos (by simp [h]), List.prod_cons, List.prod_cons, ih]

/-- C4: the axis-merging step of `_reduce_dims` merges axes `i-1, i`
exactly when every contributing array operand satisfies
`stride[i] * extent[i] = stride[i-1]` — a single violating operand
prevents the merge; the reduced iteration shape always has the same
total element count as the original iteration shape; and for iteration
shapes of rank at most 1 the whole reduction returns its arguments and
indexer unchanged. -/
theorem claim_reduce_dims_merge_and_size :
    (∀ (arrs : List NdView) (sh : List Nat) (i : Nat),
      ((∀ a ∈ arrs, a.strides.getD i 0 * ((sh.getD i 0 : Nat) : Int) =
          a.strides.getD (i - 1) 0) →
        mergeStep arrs sh i = (sh.set i (sh.getD i 0 * sh.getD (i - 1) 0)).set (i - 1) 1) ∧
      ((∃ a ∈ arrs, a.strides.getD i 0 * ((sh.getD i 0 : Nat) : Int) ≠
          a.strides.getD (i - 1) 0) →
        mergeStep arrs sh i = sh)) ∧
    (∀ (args : List Arg) (params : List Param) (indexer : Indexer),
      ((reduceDims args params indexer).2).size = indexer.size) ∧
    (∀ (args : List Arg) (params : List Param) (indexer : Indexer),
      indexer.shape.length ≤ 1 → reduceDims args params indexer = (args, indexer)) := by
  refine ⟨?_, ?_, ?_⟩
  · intro arrs sh i
    constructor
    · intro hall
      unfold mergeStep
      rw [if_pos ((contigAll_iff arrs i (sh.getD i 0)).mpr hall)]
    · intro hex
      unfold mergeStep
      rw [if_neg]
      intro hc
      obtain ⟨a, ha, hne⟩ := hex
      exact hne ((contigAll_iff arrs i (sh.getD i 0)).mp hc a ha)
  · intro args params indexer
    unfold reduceDims
    by_cases h1 : indexer.shape.length ≤ 1
    · rw [if_pos h1]
    · rw [if_neg h1]
      simp only []
      split
      · rfl
      · simp only [Indexer.size]
        rw [prod_filter_ne_one]
        exact fold_merge_prod _ _ _ (fun i hi => by
          have := List.mem_range'_1.mp hi
          omega)
  · intro args params indexer h1
    unfold reduceDims
    rw [if_pos h1]

/-- Witness for C4 at concrete views: a contiguous operand merges, a
strided one blocks the merge, the reduced size is preserved, and a
rank-1 shape is untouched. -/
theorem claim_reduce_dims_merge_and_size_witness :
    mergeStep [demoContig] [2, 3] 1 = (([2, 3] : List Nat).set 1 (3 * 2)).set 0 1 ∧
    mergeStep [demoStrided] [2, 3] 1 = [2, 3] ∧
    ((reduceDims [.cu demoContig] [⟨"x", none, some "T", false, true⟩] ⟨[2, 3]⟩).2).size =
      (Indexer.mk [2, 3]).size ∧
    reduceDims [.cu demoContig] [⟨"x", none, some "T", false, true⟩] ⟨[6]⟩ =
      ([.cu demoContig], ⟨[6]⟩) :=
  ⟨(claim_reduce_dims_merge_and_size.1 [demoContig] [2, 3] 1).1 (by decide),
   (claim_reduce_dims_merge_and_size.1 [demoStrided] [2, 3] 1).2 (by decide),
   claim_reduce_dims_merge_and_size.2.1 [.cu demoContig]
     [⟨"x", none, some "T", false, true⟩] ⟨[2, 3]⟩,
   claim_reduce_dims_merge_and_size.2.2 [.cu demoContig]
     [⟨"x", none, some "T", false, true⟩] ⟨[6]⟩ (by decide)⟩

theorem checkMods_all_raw : ∀ (mods : List String), (∀ m ∈ mods, m = "raw") →
    checkMods mods = .ok (!mods.isEmpty) := by
  intro mods
  induction mods with
  | nil => intro _; rfl
  | cons m rest ih =>
    intro hall
    have hm : m = "raw" := hall m (by simp)
    unfold checkMods
    rw [if_pos (by simp [hm])]
    rw [ih (fun x hx => hall x (List.mem_cons_of_mem m hx))]
    simp

theorem checkMods_bad : ∀ (mods : List String) (m : String), m ∈ mods → m ≠ "raw" →
    ∃ e, checkMods mods = .error e := by
  intro mods
  induction mods with
  | nil => intro m hm; simp at hm
  | cons m0 rest ih =>
    intro m hm hne
    unfold checkMods
    by_cases h0 : m0 = "raw"
    · rw [if_pos (by simp [h0])]
      have hmr : m ∈ rest := by
        rcases List.mem_cons.mp hm with rfl | hmr
        · exact absurd h0 hne
        · exact hmr
      obtain ⟨e, he⟩ := ih m hmr hne
      exact ⟨e, by rw [he]⟩
    · rw [if_neg (by simp [h0])]
      exact ⟨.exception ("Unknown keyward " ++ m0), rfl⟩

theorem parameterInfo_tokens {s : String} {mods : List String} {t nm : String}
    (h : pySplitWs s = mods ++ [t, nm]) :
    (pySplitWs s).reverse = nm :: t :: mods.reverse := by
  rw [h]
  simp

/-- C7 counterexample: the entry `CIndexer _ind` has the
multi-character type token `CIndexer`, which is not a canonical element
type name, yet `ParameterInfo` parses it successfully (lines 155-156) —
refuting the claim that every non-canonical multi-character type token
fails to parse. -/
theorem claim_param_parsing_counterexample :
    parameterInfo "CIndexer _ind" false = .ok ⟨"_ind", none, none, false, false⟩ ∧
    (1 < "CIndexer".length ∧ ∀ d : Dtype, dtypeName d ≠ "CIndexer") := by
  refine ⟨by decide, by decide, ?_⟩
  intro d
  cases d <;> decide

/-- C7 (amended): in every parameter-spec entry, a single-character type
token yields a generic tag; a multi-character type token other than the
literal `CIndexer` that is not a canonical element-type name makes
parsing fail; and parsing fails on an entry with fewer than two tokens
or with a modifier token other than `raw`. -/
theorem claim_param_parsing_amended (s : String) (c : Bool) :
    (∀ mods t nm, pySplitWs s = mods ++ [t, nm] → t.length = 1 →
      (∀ m ∈ mods, m = "raw") →
      parameterInfo s c = .ok ⟨nm, none, some t, !mods.isEmpty, c⟩) ∧
    (∀ mods t nm, pySplitWs s = mods ++ [t, nm] → 1 < t.length → t ≠ "CIndexer" →
      (∀ d : Dtype, dtypeName d ≠ t) →
      ∃ e, parameterInfo s c = .error e) ∧
    ((pySplitWs s).length < 2 →
      parameterInfo s c = .error (.exception ("Syntax error: " ++ s))) ∧
    (∀ mods t nm m, pySplitWs s = mods ++ [t, nm] → m ∈ mods → m ≠ "raw" →
      ∃ e, parameterInfo s c = .error e) := by
  refine ⟨?_, ?_, ?_, ?_⟩
  · intro mods t nm h hlen hall
    have hne : (t == "CIndexer") = false := by
      rw [beq_eq_false_iff_ne]
      intro heq
      rw [heq] at hlen
      exact absurd hlen (by decide)
    have htok : parseTypeToken t = .ok (none, some t) := by
      simp [parseTypeToken, hne, hlen]
    rw [parameterInfo, parameterInfo_tokens h]
    simp only [parameterInfoCore, htok, List.reverse_reverse,
      checkMods_all_raw mods hall]
  · intro mods t nm h hlen hne hncanon
    have hne2 : (t == "CIndexer") = false := by rw [beq_eq_false_iff_ne]; exact hne
    have hlen2 : (t.length == 1) = false := by
      rw [beq_eq_false_iff_ne]
      omega
    have htok : ∃ e, parseTypeToken t = .error e := by
      unfold parseTypeToken
      rw [if_neg (by simp [hne2]), if_neg (by simp [hlen2])]
      cases hd : npDtypeOfString t with
      | none => exact ⟨.typeError "data type not understood", rfl⟩
      | some d =>
        refine ⟨.valueError ("Wrong type " ++ t), ?_⟩
        show (if dtypeName d ≠ t then
            (Except.error (PyError.valueError ("Wrong type " ++ t)) :
              Except PyError (Option Dtype × Option String))
          else .ok (some d, some (cTypename d))) = .error (.valueError ("Wrong type " ++ t))
        rw [if_pos (hncanon d)]
    obtain ⟨e, he⟩ := htok
    rw [parameterInfo, parameterInfo_tokens h]
    exact ⟨e, by simp only [parameterInfoCore, he]⟩
  · intro hlen
    rw [parameterInfo]
    cases hrev : (pySplitWs s).reverse with
    | nil => rfl
    | cons a tail =>
      cases tail with
      | nil => rfl
      | cons b tail2 =>
        have h2 : 2 ≤ (pySplitWs s).length := by
          have := congrArg List.length hrev
          simp at this
          omega
        omega
  · intro mods t nm m h hm hne
    obtain ⟨e, he⟩ := checkMods_bad mods m hm hne
    rw [parameterInfo, parameterInfo_tokens h]
    cases htyped : parseTypeToken t with
    | error e2 => exact ⟨e2, by simp only [parameterInfoCore, htyped]⟩
    | ok dc =>
      obtain ⟨dt, ct⟩ := dc
      exact ⟨e, by simp only [parameterInfoCore, htyped, List.reverse_reverse, he]⟩

/-- Witness for the amended C7 at concrete entries: a generic tag with a
`raw` modifier parses, the alias `f4` fails, a one-token entry fails with
the syntax error, and an unknown modifier fails. -/
theorem claim_param_parsing_amended_witness :
    parameterInfo "raw T x" true = .ok ⟨"x", none, some "T", true, true⟩ ∧
    (∃ e, parameterInfo "f4 x" true = .error e) ∧
    parameterInfo "x" true = .error (.exception ("Syntax error: " ++ "x")) ∧
    (∃ e, parameterInfo "foo T x" true = .error e) :=
  ⟨(claim_param_parsing_amended "raw T x" true).1 ["raw"] "T" "x"
      (by decide) (by decide) (by decide),
   (claim_param_parsing_amended "f4 x" true).2.1 [] "f4" "x"
      (by decide) (by decide) (by decide) (fun d => by cases d <;> decide),
   (claim_param_parsing_amended "x" true).2.2.1 (by decide),
   (claim_param_parsing_amended "foo T x" true).2.2.2 ["foo"] "T" "x" "foo"
      (by decide) (by decide) (by decide)⟩

/-- C8: whenever both parameter lists parse and some parsed input or
output parameter is named `i`, constructing the `ElementwiseKernel`
object fails with the reserved-name `ValueError` — the rejection happens
at operation-construction time, not at parse time (the parse of the
offending list has already succeeded by hypothesis). -/
theorem claim_reserved_name_i (inP outP op nm : String) (rd : Bool) (pre : String)
    (ips ops : List Param)
    (hin : getParamInfo inP true = .ok ips)
    (hout : getParamInfo outP false = .ok ops)
    (hi : "i" ∈ (ips ++ ops).map Param.name) :
    elementwiseKernelInit inP outP op nm rd pre =
      .error (.valueError "Can not use i as a parameter name") := by
  have hrest : getParamInfo "CIndexer _ind" false = .ok [indexerParam] := by decide
  have hany : ((ips ++ ops).any (fun p => p.name == "i")) = true := by
    rw [List.any_eq_true]
    obtain ⟨p, hp, hname⟩ := List.mem_map.mp hi
    exact ⟨p, hp, by simp [hname]⟩
  rw [elementwiseKernelInit]
  rw [hin, hout, hrest]
  show (if (ips ++ ops).any (fun p => p.name == "i") = true then
      (Except.error (.valueError "Can not use i as a parameter name") : Except PyError EKernel)
    else .ok ⟨ips, ops, ips ++ ops ++ [indexerParam], op, nm, rd, pre⟩) = _
  rw [if_pos hany]

/-- Witness for C8: the spec `T i` parses fine on its own, and building
the kernel object from it fails with the reserved-name error. -/
theorem claim_reserved_name_i_witness :
    getParamInfo "T i" true = .ok [⟨"i", none, some "T", false, true⟩] ∧
    elementwiseKernelInit "T i" "T y" "y = x" "kernel" true "" =
      .error (.valueError "Can not use i as a parameter name") :=
  ⟨by decide,
   claim_reserved_name_i "T i" "T y" "y = x" "kernel" true ""
     [⟨"i", none, some "T", false, true⟩] [⟨"y", none, some "T", false, false⟩]
     (by decide) (by decide) (by decide)⟩

theorem except_bind_error {α β : Type} (e : PyError) (f : α → Except PyError β) :
    (Except.error e >>= f) = Except.error e := rfl

theorem except_bind_ok {α β : Type} (a : α) (f : α → Except PyError β) :
    (Except.ok a >>= f) = f a := rfl

theorem npCheck_np {args : List Arg} {d : Dtype} {sh : List Nat}
    (hmem : Arg.np d sh ∈ args) :
    npCheck args = .error (.typeError "Unsupported type numpy.ndarray") := by
  induction args with
  | nil => simp at hmem
  | cons a rest ih =>
    cases a with
    | np d2 sh2 => rfl
    | cu v =>
      have : Arg.np d sh ∈ rest := by
        rcases List.mem_cons.mp hmem with heq | h
        · exact absurd heq (by simp)
        · exact h
      exact ih this
    | scalar d2 b =>
      have : Arg.np d sh ∈ rest := by
        rcases List.mem_cons.mp hmem with heq | h
        · exact absurd heq (by simp)
        · exact h
      exact ih this
    | pyNone =>
      have : Arg.np d sh ∈ rest := by
        rcases List.mem_cons.mp hmem with heq | h
        · exact absurd heq (by simp)
        · exact h
      exact ih this

/-- C9: a call to `ElementwiseKernel.__call__` in which some positional
argument is a host numpy array fails with a `TypeError` raised before
broadcasting, type resolution or any kernel work (the result records no
kernel event, and no array is touched). -/
theorem claim_host_array_rejected (ek : EKernel) (curDev : Nat) (args : List Arg)
    (n : Option Nat) (hnp : ∃ d sh, Arg.np d sh ∈ args) :
    ∃ msg, elementwiseCall ek curDev args n = .error (.typeError msg) := by
  obtain ⟨d, sh, hmem⟩ := hnp
  by_cases harity : args.length = ek.nin ∨ args.length = ek.nin + ek.nout
  · refine ⟨"Unsupported type numpy.ndarray", ?_⟩
    rw [elementwiseCall, elementwisePrep, if_neg (not_not_intro harity),
      npCheck_np hmem, except_bind_error, except_bind_error]
  · refine ⟨"Wrong number of arguments for " ++ ek.name, ?_⟩
    rw [elementwiseCall, elementwisePrep, if_pos harity, except_bind_error]

/-- Witness for C9 at a concrete host array. -/
theorem claim_host_array_rejected_witness :
    ∃ msg, elementwiseCall
      ⟨[⟨"x", none, some "T", false, true⟩], [⟨"y", none, some "T", false, false⟩],
       [⟨"x", none, some "T", false, true⟩, ⟨"y", none, some "T", false, false⟩, indexerParam],
       "y = x", "kernel", true, ""⟩
      0 [.np .float32 [3]] none = .error (.typeError msg) :=
  claim_host_array_rejected _ 0 [.np .float32 [3]] none ⟨.float32, [3], by simp⟩

/-- C5: whenever a call's broadcast iteration space has zero elements,
both `ElementwiseKernel.__call__` and `ufunc.__call__` return the
already-resolved (possibly freshly allocated, possibly zero-sized)
output array or tuple with no kernel event at all: no source synthesis,
no native compilation, no launch. -/
theorem claim_zero_size_skips_launch :
    (∀ (ek : EKernel) (curDev : Nat) (args : List Arg) (n : Option Nat) (pr : PrepResult),
      elementwisePrep ek curDev args n = .ok pr → pr.brod.size = 0 →
      elementwiseCall ek curDev args n = .ok (mkRet pr.outs, [])) ∧
    (∀ (u : Ufunc) (tbl : RTable) (curDev : Nat) (args : List Arg) (out : Option Arg)
        (dt? : Option Dtype) (pr : PrepResult),
      ufuncPrep u tbl curDev args out dt? = .ok pr → pr.brod.size = 0 →
      ufuncCall u tbl curDev args out dt? = .ok (mkRet pr.outs, [])) := by
  constructor
  · intro ek curDev args n pr hprep hzero
    rw [elementwiseCall, hprep, except_bind_ok]
    simp only [if_pos hzero]
  · intro u tbl curDev args out dt? pr hprep hzero
    have hmem : (0 : Nat) ∈ pr.brod.shape := by
      have := hzero
      rw [Brod.size] at this
      exact List.prod_eq_zero_iff.mp this
    rw [ufuncCall, hprep, except_bind_ok]
    simp only [if_pos hmem]

/-- Witness for C5: zero-length elementwise and ufunc calls return the
zero-sized outputs with an empty event list. -/
theorem claim_zero_size_skips_launch_witness :
    elementwiseCall
      ⟨[⟨"x", none, some "T", false, true⟩], [⟨"y", none, some "T", false, false⟩],
       [⟨"x", none, some "T", false, true⟩, ⟨"y", none, some "T", false, false⟩, indexerParam],
       "y = x", "kernel", true, ""⟩
      0 [.cu ⟨.float32, [0], [4], 0⟩] none =
      .ok (.one ⟨.float32, [0], [4], 0⟩, []) ∧
    ufuncCall uAddDemo [] 0 [.cu ⟨.int32, [0], [4], 0⟩, .cu ⟨.int32, [0], [4], 0⟩] none none =
      .ok (.one ⟨.int32, [0], [4], 0⟩, []) :=
  ⟨claim_zero_size_skips_launch.1 _ 0 [.cu ⟨.float32, [0], [4], 0⟩] none
      ⟨⟨[0], [.cu ⟨.float32, [0], [4], 0⟩]⟩, [.cu ⟨.float32, [0], [4], 0⟩],
       [⟨.float32, [0], [4], 0⟩], ⟨[0]⟩⟩ (by decide) (by decide),
   claim_zero_size_skips_launch.2 uAddDemo [] 0
      [.cu ⟨.int32, [0], [4], 0⟩, .cu ⟨.int32, [0], [4], 0⟩] none none
      ⟨⟨[0], [.cu ⟨.int32, [0], [4], 0⟩, .cu ⟨.int32, [0], [4], 0⟩]⟩,
       [.cu ⟨.int32, [0], [4], 0⟩, .cu ⟨.int32, [0], [4], 0⟩],
       [⟨.int32, [0], [4], 0⟩], ⟨[0]⟩⟩ (by decide) (by decide)⟩

theorem npCheck_ok {args : List Arg} {curDev : Nat}
    (h : ∀ a ∈ args, a.isScalar = true ∨ a.onDevice curDev = true) :
    npCheck args = .ok () := by
  induction args with
  | nil => rfl
  | cons a rest ih =>
    have ha := h a (by simp)
    have hrest := ih (fun x hx => h x (List.mem_cons_of_mem a hx))
    cases a with
    | cu v => exact hrest
    | scalar d b => exact hrest
    | np d sh => simp [Arg.isScalar, Arg.onDevice] at ha
    | pyNone => simp [Arg.isScalar, Arg.onDevice] at ha

theorem checkArgs_ok {args : List Arg} {curDev : Nat}
    (h : ∀ a ∈ args, a.isScalar = true ∨ a.onDevice curDev = true) :
    checkArgs curDev args = .ok () := by
  induction args with
  | nil => rfl
  | cons a rest ih =>
    have ha := h a (by simp)
    have hrest := ih (fun x hx => h x (List.mem_cons_of_mem a hx))
    cases a with
    | cu v =>
      have hdev : (v.device == curDev) = true := by
        simpa [Arg.isScalar, Arg.onDevice] using ha
      simp only [checkArgs, if_pos hdev]
      exact hrest
    | scalar d b => exact hrest
    | np d sh => simp [Arg.isScalar, Arg.onDevice] at ha
    | pyNone => simp [Arg.isScalar, Arg.onDevice] at ha

theorem pyBroadcastStage_all_none (args : List Arg) (params : List Param)
    (h : ∀ pa ∈ params.zip args, (!pa.1.raw && pa.2.isCu) = false) :
    pyBroadcastStage args params true = .error (.valueError "Loop size is Undecided") := by
  have hmap : (params.zip args).map
      (fun pa => if !pa.1.raw && pa.2.isCu then pa.2 else .pyNone) =
      (params.zip args).map (fun _ => Arg.pyNone) := by
    apply List.map_congr_left
    intro pa hpa
    rw [if_neg (by rw [h pa hpa]; simp)]
  have hfm : ((params.zip args).map (fun _ => Arg.pyNone)).filterMap
      (fun a => match a with
        | Arg.cu v => some v.shape
        | _ => none) = [] := by
    rw [List.filterMap_eq_nil_iff]
    intro a ha
    obtain ⟨x, _, rfl⟩ := List.mem_map.mp ha
    rfl
  have hb : cupyBroadcast ((params.zip args).map (fun _ => Arg.pyNone)) =
      .ok ⟨[], ((params.zip args).map (fun _ => Arg.pyNone)).map (broadcastValue [])⟩ := by
    rw [cupyBroadcast, cupyBroadcastShape, hfm]
    rfl
  have hall : (((params.zip args).map (fun _ => Arg.pyNone)).map
      (broadcastValue [])).all (fun v => v == Arg.pyNone) = true := by
    rw [List.all_eq_true]
    intro x hx
    obtain ⟨y, hy, rfl⟩ := List.mem_map.mp hx
    obtain ⟨z, _, rfl⟩ := List.mem_map.mp hy
    rfl
  rw [pyBroadcastStage, hmap, hb, except_bind_ok]
  simp only [Bool.true_and, if_pos hall]

theorem exists_fst_mem_zip {α β : Type} : ∀ (l1 : List α) (l2 : List β),
    l2.length ≤ l1.length → ∀ b ∈ l2, ∃ a, (a, b) ∈ l1.zip l2 := by
  intro l1 l2
  induction l2 generalizing l1 with
  | nil => intro _ b hb; simp at hb
  | cons b0 rest ih =>
    intro hlen b hb
    cases l1 with
    | nil => simp at hlen
    | cons a0 r1 =>
      rcases List.mem_cons.mp hb with rfl | hbr
      · exact ⟨a0, by simp⟩
      · obtain ⟨a, ha⟩ := ih r1 (by simpa using hlen) b hbr
        exact ⟨a, by simp [ha]⟩

/-- C6 counterexample: an invocation in which the only operand is bound
to a raw parameter (so no operand is a non-raw array) and no explicit
size is given, yet the call fails with the *device-mismatch*
`ValueError` of `_check_args`, not the loop-size-undecided one, because
the raw array lives on device 1 while device 0 is current. -/
theorem claim_undecided_size_counterexample :
    elementwiseCall ekRawDemo 0 [.cu ⟨.float32, [3], [4], 1⟩] none =
      .error (.valueError
        ("Array device must be same as the current device: array device = "
          ++ toString 1 ++ " while current = " ++ toString 0)) ∧
    (∀ pa ∈ ekRawDemo.params.zip [Arg.cu ⟨.float32, [3], [4], 1⟩], pa.1.raw = true) ∧
    [Arg.cu ⟨.float32, [3], [4], 1⟩].length = ekRawDemo.nin ∧
    PyError.valueError
        ("Array device must be same as the current device: array device = "
          ++ toString 1 ++ " while current = " ++ toString 0) ≠
      PyError.valueError "Loop size is Undecided" := by
  refine ⟨by decide, by decide, by decide, by decide⟩

/-- C6 (amended): a call with no explicit size in which every operand is
bound to a raw parameter or is a scalar — with an accepted argument
count, parameter list as assembled by `__init__`, and every array
operand resident on the current device — fails with the
loop-size-undecided `ValueError` instead of launching a kernel. -/
theorem claim_undecided_size_amended (ek : EKernel) (curDev : Nat) (args : List Arg)
    (hparams : ek.params = ek.in_params ++ ek.out_params ++ [indexerParam])
    (harity : args.length = ek.nin ∨ args.length = ek.nin + ek.nout)
    (hclass : ∀ pa ∈ ek.params.zip args,
      pa.2.isScalar = true ∨
        (pa.1.raw = true ∧ (pa.2.isScalar = true ∨ pa.2.onDevice curDev = true))) :
    elementwiseCall ek curDev args none =
      .error (.valueError "Loop size is Undecided") := by
  have hlen : args.length ≤ ek.params.length := by
    rw [hparams]
    simp only [List.length_append, List.length_replicate, List.length_cons,
      List.length_nil]
    rcases harity with h | h <;> (rw [h]; simp only [EKernel.nin, EKernel.nout]; omega)
  have hargclass : ∀ a ∈ args, a.isScalar = true ∨ a.onDevice curDev = true := by
    intro a ha
    obtain ⟨p, hp⟩ := exists_fst_mem_zip ek.params args hlen a ha
    rcases hclass (p, a) hp with h | h
    · exact Or.inl h
    · rcases h.2 with h2 | h2
      · exact Or.inl h2
      · exact Or.inr h2
  have hbc : ∀ pa ∈ ek.params.zip args, (!pa.1.raw && pa.2.isCu) = false := by
    intro pa hpa
    rcases hclass pa hpa with h | h
    · have : pa.2.isCu = false := by
        cases hpa2 : pa.2 <;> simp [Arg.isScalar, Arg.isCu, hpa2] at h ⊢
      simp [this]
    · simp [h.1]
  rw [elementwiseCall, elementwisePrep, if_neg (not_not_intro harity),
    npCheck_ok hargclass, except_bind_ok, checkArgs_ok hargclass, except_bind_ok]
  have hstage := pyBroadcastStage_all_none args ek.params hbc
  rw [show (none : Option Nat).isNone = true from rfl, hstage, except_bind_error,
    except_bind_error]

/-- Witness for the amended C6: an all-scalar call to the raw-parameter
demo kernel fails with the loop-size-undecided error. -/
theorem claim_undecided_size_amended_witness :
    elementwiseCall ekRawDemo 0 [.scalar .float32 true] none =
      .error (.valueError "Loop size is Undecided") :=
  claim_undecided_size_amended ekRawDemo 0 [.scalar .float32 true]
    (by decide) (by decide)
    (by
      intro pa hpa
      simp [ekRawDemo, indexerParam] at hpa
      rw [hpa]
      exact Or.inl rfl)

theorem orE_none_left (b : Option Dtype) : orE none b = b := rfl

theorem orE_none_right (a : Option Dtype) : orE a none = a := by
  cases a <;> rfl

theorem orE_some (x : Dtype) (b : Option Dtype) : orE (some x) b = some x := rfl

theorem orE_assoc (a b c : Option Dtype) : orE (orE a b) c = orE a (orE b c) := by
  cases a <;> rfl

theorem tdLookup_append (td : TD) (k0 : Option String) (v : Dtype) (k : Option String) :
    tdLookup (td ++ [(k0, v)]) k =
      orE (tdLookup td k) (if k0 = k then some v else none) := by
  unfold tdLookup
  rw [List.find?_append]
  cases hf : td.find? (fun e => decide (e.1 = k)) with
  | some e => simp [orE]
  | none =>
    simp only [Option.none_or, orE_none_left]
    by_cases hk : k0 = k
    · rw [List.find?_cons_of_pos _ (by simp [hk])]
      simp [hk, orE]
    · rw [List.find?_cons_of_neg _ (by simp [hk])]
      simp [hk, orE]

theorem firstObs_nil (k : Option String) : firstObs [] k = none := rfl

theorem firstObs_cons (e : Option String × Dtype) (rest : List (Option String × Dtype))
    (k : Option String) :
    firstObs (e :: rest) k = if e.1 = k then some e.2 else firstObs rest k := by
  unfold firstObs
  by_cases hk : e.1 = k
  · rw [List.find?_cons_of_pos _ (by simp [hk]), if_pos hk]
    rfl
  · rw [List.find?_cons_of_neg _ (by simp [hk]), if_neg hk]

theorem firstObs_append (l1 l2 : List (Option String × Dtype)) (k : Option String) :
    firstObs (l1 ++ l2) k = orE (firstObs l1 k) (firstObs l2 k) := by
  unfold firstObs
  rw [List.find?_append]
  cases hf : l1.find? (fun e => decide (e.1 = k)) with
  | some e => simp [orE]
  | none => simp [orE]

theorem obsOf_nil : obsOf [] = [] := rfl

theorem obsOf_cons_none (p : Param) (rest : List (Param × Option Dtype)) :
    obsOf ((p, none) :: rest) = obsOf rest := by
  cases hdt : p.dtype <;> simp [obsOf, hdt]

theorem obsOf_cons_concrete {p : Param} (dt : Dtype) (hdt : p.dtype = some dt)
    (ad : Option Dtype) (rest : List (Param × Option Dtype)) :
    obsOf ((p, ad) :: rest) = obsOf rest := by
  cases ad <;> simp [obsOf, hdt]

theorem obsOf_cons_generic {p : Param} (hdt : p.dtype = none) (ad : Dtype)
    (rest : List (Param × Option Dtype)) :
    obsOf ((p, some ad) :: rest) = (p.ctype, ad) :: obsOf rest := by
  simp [obsOf, hdt]

theorem outScan_ok_lookup : ∀ (pairs : List (Param × Option Dtype)) (td td2 : TD),
    outScan pairs td = .ok td2 →
    ∀ k, tdLookup td2 k = orE (tdLookup td k) (firstObs (obsOf pairs) k) := by
  intro pairs
  induction pairs with
  | nil =>
    intro td td2 h k
    simp only [outScan] at h
    obtain rfl : td = td2 := by simpa using h
    rw [obsOf_nil, firstObs_nil, orE_none_right]
  | cons pa rest ih =>
    intro td td2 h k
    obtain ⟨p, a⟩ := pa
    cases a with
    | none => simp [outScan] at h
    | some ad =>
      cases hdt : p.dtype with
      | some dt =>
        simp only [outScan, hdt] at h
        by_cases hne : ad ≠ dt
        · rw [if_pos hne] at h; exact absurd h (by simp)
        · rw [if_neg hne] at h
          rw [obsOf_cons_concrete dt hdt]
          exact ih td td2 h k
      | none =>
        simp only [outScan, hdt] at h
        rw [obsOf_cons_generic hdt, firstObs_cons]
        cases hlk : tdLookup td p.ctype with
        | some t =>
          simp only [hlk] at h
          by_cases hne : t ≠ ad
          · rw [if_pos hne] at h; exact absurd h (by simp)
          · rw [if_neg hne] at h
            push_neg at hne
            rw [ih td td2 h k]
            by_cases hk : p.ctype = k
            · rw [if_pos hk, ← hk, hlk, orE_some, orE_some, hne]
            · rw [if_neg hk]
        | none =>
          simp only [hlk] at h
          rw [ih (td ++ [(p.ctype, ad)]) td2 h k, tdLookup_append, orE_assoc]
          by_cases hk : p.ctype = k
          · rw [if_pos hk, if_pos hk, orE_some]
          · rw [if_neg hk, if_neg hk, orE_none_left]

theorem inScan_ok_lookup : ∀ (pairs : List (Param × Option Dtype)) (td td2 : TD),
    inScan pairs td = .ok td2 →
    ∀ k, tdLookup td2 k = orE (tdLookup td k) (firstObs (obsOf pairs) k) := by
  intro pairs
  induction pairs with
  | nil =>
    intro td td2 h k
    simp only [inScan] at h
    obtain rfl : td = td2 := by simpa using h
    rw [obsOf_nil, firstObs_nil, orE_none_right]
  | cons pa rest ih =>
    intro td td2 h k
    obtain ⟨p, a⟩ := pa
    cases a with
    | none =>
      simp only [inScan] at h
      rw [obsOf_cons_none]
      exact ih td td2 h k
    | some ad =>
      cases hdt : p.dtype with
      | some dt =>
        simp only [inScan, hdt] at h
        by_cases hne : ad ≠ dt
        · rw [if_pos hne] at h; exact absurd h (by simp)
        · rw [if_neg hne] at h
          rw [obsOf_cons_concrete dt hdt]
          exact ih td td2 h k
      | none =>
        simp only [inScan, hdt] at h
        rw [obsOf_cons_generic hdt, firstObs_cons]
        cases hlk : tdLookup td p.ctype with
        | some t =>
          simp only [hlk] at h
          by_cases hne : t ≠ ad
          · rw [if_pos hne] at h; exact absurd h (by simp)
          · rw [if_neg hne] at h
            push_neg at hne
            rw [ih td td2 h k]
            by_cases hk : p.ctype = k
            · rw [if_pos hk, ← hk, hlk, orE_some, orE_some, hne]
            · rw [if_neg hk]
        | none =>
          simp only [hlk] at h
          rw [ih (td ++ [(p.ctype, ad)]) td2 h k, tdLookup_append, orE_assoc]
          by_cases hk : p.ctype = k
          · rw [if_pos hk, if_pos hk, orE_some]
          · rw [if_neg hk, if_neg hk, orE_none_left]

theorem inScan_mono {pairs : List (Param × Option Dtype)} {td td2 : TD}
    (h : inScan pairs td = .ok td2) {k : Option String} {v : Dtype}
    (hv : tdLookup td k = some v) : tdLookup td2 k = some v := by
  rw [inScan_ok_lookup pairs td td2 h k, hv, orE_some]

theorem outScan_mono {pairs : List (Param × Option Dtype)} {td td2 : TD}
    (h : outScan pairs td = .ok td2) {k : Option String} {v : Dtype}
    (hv : tdLookup td k = some v) : tdLookup td2 k = some v := by
  rw [outScan_ok_lookup pairs td td2 h k, hv, orE_some]

theorem outScan_consistent : ∀ (pairs : List (Param × Option Dtype)) (td td2 : TD),
    outScan pairs td = .ok td2 → ∀ e ∈ obsOf pairs, tdLookup td2 e.1 = some e.2 := by
  intro pairs
  induction pairs with
  | nil => intro td td2 _ e he; rw [obsOf_nil] at he; simp at he
  | cons pa rest ih =>
    intro td td2 h e he
    obtain ⟨p, a⟩ := pa
    cases a with
    | none => simp [outScan] at h
    | some ad =>
      cases hdt : p.dtype with
      | some dt =>
        simp only [outScan, hdt] at h
        by_cases hne : ad ≠ dt
        · rw [if_pos hne] at h; exact absurd h (by simp)
        · rw [if_neg hne] at h
          rw [obsOf_cons_concrete dt hdt] at he
          exact ih td td2 h e he
      | none =>
        simp only [outScan, hdt] at h
        rw [obsOf_cons_generic hdt] at he
        cases hlk : tdLookup td p.ctype with
        | some t =>
          simp only [hlk] at h
          by_cases hne : t ≠ ad
          · rw [if_pos hne] at h; exact absurd h (by simp)
          · rw [if_neg hne] at h
            push_neg at hne
            rcases List.mem_cons.mp he with rfl | he2
            · exact outScan_mono h (by rw [hlk, hne])
            · exact ih td td2 h e he2
        | none =>
          simp only [hlk] at h
          rcases List.mem_cons.mp he with rfl | he2
          · refine outScan_mono h ?_
            rw [tdLookup_append, hlk, orE_none_left, if_pos rfl]
          · exact ih _ td2 h e he2

theorem inScan_consistent : ∀ (pairs : List (Param × Option Dtype)) (td td2 : TD),
    inScan pairs td = .ok td2 → ∀ e ∈ obsOf pairs, tdLookup td2 e.1 = some e.2 := by
  intro pairs
  induction pairs with
  | nil => intro td td2 _ e he; rw [obsOf_nil] at he; simp at he
  | cons pa rest ih =>
    intro td td2 h e he
    obtain ⟨p, a⟩ := pa
    cases a with
    | none =>
      simp only [inScan] at h
      rw [obsOf_cons_none] at he
      exact ih td td2 h e he
    | some ad =>
      cases hdt : p.dtype with
      | some dt =>
        simp only [inScan, hdt] at h
        by_cases hne : ad ≠ dt
        · rw [if_pos hne] at h; exact absurd h (by simp)
        · rw [if_neg hne] at h
          rw [obsOf_cons_concrete dt hdt] at he
          exact ih td td2 h e he
      | none =>
        simp only [inScan, hdt] at h
        rw [obsOf_cons_generic hdt] at he
        cases hlk : tdLookup td p.ctype with
        | some t =>
          simp only [hlk] at h
          by_cases hne : t ≠ ad
          · rw [if_pos hne] at h; exact absurd h (by simp)
          · rw [if_neg hne] at h
            push_neg at hne
            rcases List.mem_cons.mp he with rfl | he2
            · exact inScan_mono h (by rw [hlk, hne])
            · exact ih td td2 h e he2
        | none =>
          simp only [hlk] at h
          rcases List.mem_cons.mp he with rfl | he2
          · refine inScan_mono h ?_
            rw [tdLookup_append, hlk, orE_none_left, if_pos rfl]
          · exact ih _ td2 h e he2

theorem outScan_error : ∀ (pairs : List (Param × Option Dtype)) (td : TD) (e : PyError),
    outScan pairs td = .error e → ∃ m, e = .typeError m := by
  intro pairs
  induction pairs with
  | nil => intro td e h; simp [outScan] at h
  | cons pa rest ih =>
    intro td e h
    obtain ⟨p, a⟩ := pa
    cases a with
    | none =>
      simp only [outScan] at h
      exact ⟨"Output arguments must be cupy.ndarray", by simpa using h.symm⟩
    | some ad =>
      cases hdt : p.dtype with
      | some dt =>
        simp only [outScan, hdt] at h
        by_cases hne : ad ≠ dt
        · rw [if_pos hne] at h
          exact ⟨"Type is mismatched", by simpa using h.symm⟩
        · rw [if_neg hne] at h
          exact ih td e h
      | none =>
        simp only [outScan, hdt] at h
        cases hlk : tdLookup td p.ctype with
        | some t =>
          simp only [hlk] at h
          by_cases hne : t ≠ ad
          · rw [if_pos hne] at h
            exact ⟨"Type is mismatched", by simpa using h.symm⟩
          · rw [if_neg hne] at h
            exact ih td e h
        | none =>
          simp only [hlk] at h
          exact ih _ e h

theorem inScan_error : ∀ (pairs : List (Param × Option Dtype)) (td : TD) (e : PyError),
    inScan pairs td = .error e → ∃ m, e = .typeError m := by
  intro pairs
  induction pairs with
  | nil => intro td e h; simp [inScan] at h
  | cons pa rest ih =>
    intro td e h
    obtain ⟨p, a⟩ := pa
    cases a with
    | none =>
      simp only [inScan] at h
      exact ih td e h
    | some ad =>
      cases hdt : p.dtype with
      | some dt =>
        simp only [inScan, hdt] at h
        by_cases hne : ad ≠ dt
        · rw [if_pos hne] at h
          exact ⟨"Type is mismatched", by simpa using h.symm⟩
        · rw [if_neg hne] at h
          exact ih td e h
      | none =>
        simp only [inScan, hdt] at h
        cases hlk : tdLookup td p.ctype with
        | some t =>
          simp only [hlk] at h
          by_cases hne : t ≠ ad
          · rw [if_pos hne] at h
            exact ⟨"Type is mismatched", by simpa using h.symm⟩
          · rw [if_neg hne] at h
            exact ih td e h
        | none =>
          simp only [hlk] at h
          exact ih _ e h

theorem outScan_concrete : ∀ (pairs : List (Param × Option Dtype)) (td td2 : TD),
    outScan pairs td = .ok td2 →
    ∀ pa ∈ pairs, ∀ dt ad, pa.1.dtype = some dt → pa.2 = some ad → ad = dt := by
  intro pairs
  induction pairs with
  | nil => intro td td2 _ pa hpa; simp at hpa
  | cons pa0 rest ih =>
    intro td td2 h pa hpa dt ad hdt had
    obtain ⟨p, a⟩ := pa0
    cases a with
    | none => simp [outScan] at h
    | some ad0 =>
      cases hdt0 : p.dtype with
      | some dt0 =>
        simp only [outScan, hdt0] at h
        by_cases hne : ad0 ≠ dt0
        · rw [if_pos hne] at h; exact absurd h (by simp)
        · rw [if_neg hne] at h
          push_neg at hne
          rcases List.mem_cons.mp hpa with rfl | hpa2
          · simp only [hdt0] at hdt
            obtain rfl : dt0 = dt := by simpa using hdt
            obtain rfl : ad0 = ad := by simpa using had
            exact hne
          · exact ih td td2 h pa hpa2 dt ad hdt had
      | none =>
        simp only [outScan, hdt0] at h
        cases hlk : tdLookup td p.ctype with
        | some t =>
          simp only [hlk] at h
          by_cases hne : t ≠ ad0
          · rw [if_pos hne] at h; exact absurd h (by simp)
          · rw [if_neg hne] at h
            rcases List.mem_cons.mp hpa with rfl | hpa2
            · rw [hdt0] at hdt; simp at hdt
            · exact ih td td2 h pa hpa2 dt ad hdt had
        | none =>
          simp only [hlk] at h
          rcases List.mem_cons.mp hpa with rfl | hpa2
          · rw [hdt0] at hdt; simp at hdt
          · exact ih _ td2 h pa hpa2 dt ad hdt had

theorem inScan_concrete : ∀ (pairs : List (Param × Option Dtype)) (td td2 : TD),
    inScan pairs td = .ok td2 →
    ∀ pa ∈ pairs, ∀ dt ad, pa.1.dtype = some dt → pa.2 = some ad → ad = dt := by
  intro pairs
  induction pairs with
  | nil => intro td td2 _ pa hpa; simp at hpa
  | cons pa0 rest ih =>
    intro td td2 h pa hpa dt ad hdt had
    obtain ⟨p, a⟩ := pa0
    cases a with
    | none =>
      simp only [inScan] at h
      rcases List.mem_cons.mp hpa with rfl | hpa2
      · simp at had
      · exact ih td td2 h pa hpa2 dt ad hdt had
    | some ad0 =>
      cases hdt0 : p.dtype with
      | some dt0 =>
        simp only [inScan, hdt0] at h
        by_cases hne : ad0 ≠ dt0
        · rw [if_pos hne] at h; exact absurd h (by simp)
        · rw [if_neg hne] at h
          push_neg at hne
          rcases List.mem_cons.mp hpa with rfl | hpa2
          · simp only [hdt0] at hdt
            obtain rfl : dt0 = dt := by simpa using hdt
            obtain rfl : ad0 = ad := by simpa using had
            exact hne
          · exact ih td td2 h pa hpa2 dt ad hdt had
      | none =>
        simp only [inScan, hdt0] at h
        cases hlk : tdLookup td p.ctype with
        | some t =>
          simp only [hlk] at h
          by_cases hne : t ≠ ad0
          · rw [if_pos hne] at h; exact absurd h (by simp)
          · rw [if_neg hne] at h
            rcases List.mem_cons.mp hpa with rfl | hpa2
            · rw [hdt0] at hdt; simp at hdt
            · exact ih td td2 h pa hpa2 dt ad hdt had
        | none =>
          simp only [hlk] at h
          rcases List.mem_cons.mp hpa with rfl | hpa2
          · rw [hdt0] at hdt; simp at hdt
          · exact ih _ td2 h pa hpa2 dt ad hdt had

theorem outScanStep_lookup {outP : List Param} {outDts : List (Option Dtype)} {td0 : TD}
    (h : outScanStep outP outDts = .ok td0) :
    ∀ k, tdLookup td0 k = firstObs (obsOf (outP.zip outDts)) k := by
  unfold outScanStep at h
  by_cases hemp : outDts.isEmpty
  · rw [if_pos hemp] at h
    obtain rfl : ([] : TD) = td0 := by simpa using h
    intro k
    obtain rfl : outDts = [] := List.isEmpty_iff.mp hemp
    rw [List.zip_nil_right, obsOf_nil]
    rfl
  · rw [if_neg hemp] at h
    by_cases hlen : outP.length ≠ outDts.length
    · rw [if_pos hlen] at h; exact absurd h (by simp)
    · rw [if_neg hlen] at h
      intro k
      rw [outScan_ok_lookup _ _ _ h k]
      rfl

theorem outScanStep_consistent {outP : List Param} {outDts : List (Option Dtype)} {td0 : TD}
    (h : outScanStep outP outDts = .ok td0) :
    ∀ e ∈ obsOf (outP.zip outDts), tdLookup td0 e.1 = some e.2 := by
  unfold outScanStep at h
  by_cases hemp : outDts.isEmpty
  · obtain rfl : outDts = [] := List.isEmpty_iff.mp hemp
    rw [List.zip_nil_right, obsOf_nil]
    intro e he
    simp at he
  · rw [if_neg hemp] at h
    by_cases hlen : outP.length ≠ outDts.length
    · rw [if_pos hlen] at h; exact absurd h (by simp)
    · rw [if_neg hlen] at h
      exact outScan_consistent _ _ _ h

theorem outScanStep_concrete {outP : List Param} {outDts : List (Option Dtype)} {td0 : TD}
    (h : outScanStep outP outDts = .ok td0) :
    ∀ pa ∈ outP.zip outDts, ∀ dt ad, pa.1.dtype = some dt → pa.2 = some ad → ad = dt := by
  unfold outScanStep at h
  by_cases hemp : outDts.isEmpty
  · obtain rfl : outDts = [] := List.isEmpty_iff.mp hemp
    rw [List.zip_nil_right]
    intro pa hpa
    simp at hpa
  · rw [if_neg hemp] at h
    by_cases hlen : outP.length ≠ outDts.length
    · rw [if_pos hlen] at h; exact absurd h (by simp)
    · rw [if_neg hlen] at h
      exact outScan_concrete _ _ _ h

theorem decide_ok_inv {inP outP : List Param} {inDts outDts : List (Option Dtype)}
    {it ot : List Dtype} {td : TD}
    (h : decideParamsType inP outP inDts outDts = .ok (it, ot, td)) :
    ∃ td0, outScanStep outP outDts = .ok td0 ∧ inScan (inP.zip inDts) td0 = .ok td := by
  unfold decideParamsType at h
  cases ho : outScanStep outP outDts with
  | error e => simp only [ho] at h; exact absurd h (by simp)
  | ok td0 =>
    simp only [ho] at h
    by_cases hlen : inP.length ≠ inDts.length
    · rw [if_pos hlen] at h; exact absurd h (by simp)
    · rw [if_neg hlen] at h
      cases hi : inScan (inP.zip inDts) td0 with
      | error e => simp only [hi] at h; exact absurd h (by simp)
      | ok td1 =>
        simp only [hi] at h
        cases hf1 : finalTypes inP td1 with
        | error e => simp only [hf1] at h; exact absurd h (by simp)
        | ok its =>
          simp only [hf1] at h
          cases hf2 : finalTypes outP td1 with
          | error e => simp only [hf2] at h; exact absurd h (by simp)
          | ok ots =>
            simp only [hf2] at h
            obtain ⟨rfl, rfl, rfl⟩ : its = it ∧ ots = ot ∧ td1 = td := by
              simpa using h
            exact ⟨td0, rfl, hi⟩

theorem decide_scans_not_ok {inP outP : List Param} {inDts outDts : List (Option Dtype)}
    (hlenO : outDts = [] ∨ outP.length = outDts.length)
    (hlenI : inP.length = inDts.length)
    (hcontra : ∀ td0 td, outScanStep outP outDts = .ok td0 →
      inScan (inP.zip inDts) td0 = .ok td → False) :
    ∃ m, decideParamsType inP outP inDts outDts = .error (.typeError m) := by
  unfold decideParamsType
  cases ho : outScanStep outP outDts with
  | error e =>
    have he : ∃ m, e = .typeError m := by
      unfold outScanStep at ho
      by_cases hemp : outDts.isEmpty
      · rw [if_pos hemp] at ho; exact absurd ho (by simp)
      · rw [if_neg hemp] at ho
        have hne : ¬(outP.length ≠ outDts.length) := by
          rcases hlenO with hnil | hlen
          · exact absurd (by rw [hnil]; rfl) hemp
          · exact not_not_intro hlen
        rw [if_neg hne] at ho
        exact outScan_error _ _ _ ho
    obtain ⟨m, rfl⟩ := he
    exact ⟨m, by simp only [ho]⟩
  | ok td0 =>
    simp only [ho]
    rw [if_neg (not_not_intro hlenI)]
    cases hi : inScan (inP.zip inDts) td0 with
    | error e =>
      obtain ⟨m, rfl⟩ := inScan_error _ _ _ hi
      exact ⟨m, rfl⟩
    | ok td => exact (hcontra td0 td ho hi).elim

/-- C3: during type resolution (`_decide_params_type`), on success the
final binding of every tag is exactly the first concrete operand dtype
observed for it — scanning supplied outputs first, then inputs; any
observation of an already-bound tag with a different dtype makes
resolution fail with a `TypeError`; and a concrete (non-generic)
parameter whose supplied array operand dtype differs from the declared
dtype also makes resolution fail with a `TypeError`. -/
theorem claim_type_resolution (inParams outParams : List Param)
    (inDts outDts : List (Option Dtype))
    (hlenO : outDts = [] ∨ outParams.length = outDts.length)
    (hlenI : inParams.length = inDts.length) :
    (∀ it ot td, decideParamsType inParams outParams inDts outDts = .ok (it, ot, td) →
      ∀ k, tdLookup td k =
        firstObs (obsOf (outParams.zip outDts) ++ obsOf (inParams.zip inDts)) k) ∧
    (∀ k t u, firstObs (obsOf (outParams.zip outDts) ++ obsOf (inParams.zip inDts)) k =
        some t →
      (k, u) ∈ obsOf (outParams.zip outDts) ++ obsOf (inParams.zip inDts) → u ≠ t →
      ∃ m, decideParamsType inParams outParams inDts outDts = .error (.typeError m)) ∧
    ((∃ pa ∈ outParams.zip outDts ++ inParams.zip inDts, ∃ dt ad,
        pa.1.dtype = some dt ∧ pa.2 = some ad ∧ ad ≠ dt) →
      ∃ m, decideParamsType inParams outParams inDts outDts = .error (.typeError m)) := by
  refine ⟨?_, ?_, ?_⟩
  · intro it ot td h k
    obtain ⟨td0, ho, hi⟩ := decide_ok_inv h
    rw [inScan_ok_lookup _ _ _ hi k, outScanStep_lookup ho k, firstObs_append]
  · intro k t u hfirst hmem hne
    refine decide_scans_not_ok hlenO hlenI ?_
    intro td0 td ho hi
    have hlk : tdLookup td k = some t := by
      rw [inScan_ok_lookup _ _ _ hi k, outScanStep_lookup ho k, ← firstObs_append, hfirst]
    have hu : tdLookup td k = some u := by
      rcases List.mem_append.mp hmem with hml | hmr
      · exact inScan_mono hi (outScanStep_consistent ho (k, u) hml)
      · exact inScan_consistent _ _ _ hi (k, u) hmr
    rw [hlk] at hu
    exact hne (by simpa using hu.symm)
  · intro hex
    refine decide_scans_not_ok hlenO hlenI ?_
    intro td0 td ho hi
    obtain ⟨pa, hmem, dt, ad, hdt, had, hne⟩ := hex
    rcases List.mem_append.mp hmem with hml | hmr
    · exact hne (outScanStep_concrete ho pa hml dt ad hdt had)
    · exact hne (inScan_concrete _ _ _ hi pa hmr dt ad hdt had)

/-- Witness for C3 at concrete resolutions: a float32 operand binds tag
`T` (and the final binding is the first observation); a second operand
carrying `T` with dtype int32 makes resolution fail with a `TypeError`;
and a concrete `float32` parameter supplied with an int32 array fails
with a `TypeError`. -/
theorem claim_type_resolution_witness :
    tdLookup [(some "T", Dtype.float32)] (some "T") =
      firstObs (obsOf ([(⟨"y", none, some "T", false, false⟩ : Param)].zip
          ([] : List (Option Dtype))) ++
        obsOf ([(⟨"x", none, some "T", false, true⟩ : Param)].zip [some Dtype.float32]))
        (some "T") ∧
    (∃ m, decideParamsType
        [⟨"x", none, some "T", false, true⟩, ⟨"z", none, some "T", false, true⟩] []
        [some .float32, some .int32] [] = .error (.typeError m)) ∧
    (∃ m, decideParamsType [⟨"x", some .float32, some "float", false, true⟩] []
        [some .int32] [] = .error (.typeError m)) :=
  ⟨(claim_type_resolution [⟨"x", none, some "T", false, true⟩]
      [⟨"y", none, some "T", false, false⟩] [some .float32] []
      (Or.inl rfl) (by decide)).1 [.float32] [.float32] [(some "T", .float32)]
      (by decide) (some "T"),
   (claim_type_resolution
      [⟨"x", none, some "T", false, true⟩, ⟨"z", none, some "T", false, true⟩] []
      [some .float32, some .int32] [] (Or.inl rfl) (by decide)).2.1
      (some "T") .float32 .int32 (by decide) (by decide) (by decide),
   (claim_type_resolution [⟨"x", some .float32, some "float", false, true⟩] []
      [some .int32] [] (Or.inl rfl) (by decide)).2.2
      ⟨(⟨"x", some .float32, some "float", false, true⟩, some .int32), by decide,
       .float32, .int32, rfl, rfl, by decide⟩⟩

theorem mapM_ok_length {α β : Type} (f : α → Except PyError β) :
    ∀ (l : List α) (l2 : List β), l.mapM f = .ok l2 → l2.length = l.length := by
  intro l
  induction l with
  | nil =>
    intro l2 h
    rw [List.mapM_nil] at h
    obtain rfl : ([] : List β) = l2 := by simpa [pure, Except.pure] using h
    rfl
  | cons a rest ih =>
    intro l2 h
    rw [List.mapM_cons] at h
    cases hf : f a with
    | error e => rw [hf, except_bind_error] at h; exact absurd h (by simp)
    | ok b =>
      rw [hf, except_bind_ok] at h
      cases hm : rest.mapM f with
      | error e => rw [hm, except_bind_error] at h; exact absurd h (by simp)
      | ok bs =>
        rw [hm, except_bind_ok] at h
        obtain rfl : b :: bs = l2 := by simpa [pure, Except.pure] using h
        simp [ih bs hm]

theorem finalTypes_length {ps : List Param} {td : TD} {ts : List Dtype}
    (h : finalTypes ps td = .ok ts) : ts.length = ps.length :=
  mapM_ok_length _ ps ts h

theorem checkOutsAux_length {outParams : Option (List Param)} {outShape : List Nat} :
    ∀ (outs : List Arg) (i : Nat) (vs : List NdView),
    checkOutsAux outParams outShape i outs = .ok vs → vs.length = outs.length := by
  intro outs
  induction outs with
  | nil =>
    intro i vs h
    obtain rfl : ([] : List NdView) = vs := by simpa [checkOutsAux] using h
    rfl
  | cons a rest ih =>
    intro i vs h
    cases a with
    | cu v =>
      simp only [checkOutsAux] at h
      split at h
      · exact absurd h (by simp)
      · cases hrec : checkOutsAux outParams outShape (i + 1) rest with
        | error e => rw [hrec] at h; exact absurd h (by simp)
        | ok vs2 =>
          rw [hrec] at h
          obtain rfl : v :: vs2 = vs := by simpa using h
          simp [ih (i + 1) vs2 hrec]
    | scalar d b => simp [checkOutsAux] at h
    | np d sh => simp [checkOutsAux] at h
    | pyNone => simp [checkOutsAux] at h

theorem getOutArgs_length {outArgs : List Arg} {outTypes : List Dtype} {outShape : List Nat}
    {outParams : Option (List Param)} {curDev : Nat} {vs : List NdView}
    (h : getOutArgs outArgs outTypes outShape outParams curDev = .ok vs) :
    (outArgs = [] ∧ vs.length = outTypes.length) ∨
    (outArgs ≠ [] ∧ vs.length = outArgs.length) := by
  unfold getOutArgs at h
  by_cases hemp : outArgs.isEmpty
  · rw [if_pos hemp] at h
    obtain rfl : outArgs = [] := List.isEmpty_iff.mp hemp
    left
    refine ⟨rfl, ?_⟩
    split at h
    · exact absurd h (by simp)
    · obtain rfl : outTypes.map (fun t => cupyEmpty outShape t curDev) = vs := by
        simpa using h
      simp
  · rw [if_neg hemp] at h
    right
    refine ⟨by simpa using hemp, checkOutsAux_length outArgs 0 vs h⟩

theorem cupyBroadcast_values_length {xs : List Arg} {b : Brod}
    (h : cupyBroadcast xs = .ok b) : b.values.length = xs.length := by
  unfold cupyBroadcast at h
  cases hs : cupyBroadcastShape (xs.filterMap (fun a => match a with
    | Arg.cu v => some v.shape
    | _ => none)) with
  | error e => rw [hs, except_bind_error] at h; exact absurd h (by simp)
  | ok bs =>
    rw [hs, except_bind_ok] at h
    obtain rfl : (⟨bs, xs.map (broadcastValue bs)⟩ : Brod) = b := by simpa using h
    simp

theorem pyBroadcastStage_value_length {args : List Arg} {params : List Param}
    {se : Bool} {bv : Brod × List Arg} (h : pyBroadcastStage args params se = .ok bv) :
    bv.2.length = min (min params.length args.length) args.length := by
  unfold pyBroadcastStage at h
  cases hb : cupyBroadcast ((params.zip args).map (fun pa =>
      if !pa.1.raw && pa.2.isCu then pa.2 else .pyNone)) with
  | error e => rw [hb, except_bind_error] at h; exact absurd h (by simp)
  | ok brod =>
    rw [hb, except_bind_ok] at h
    split at h
    · exact absurd h (by simp)
    · obtain rfl : (brod, (brod.values.zip args).map (fun ab =>
          match ab.1 with
          | Arg.pyNone => ab.2
          | a => a)) = bv := by simpa using h
      have hv := cupyBroadcast_values_length hb
      simp only [List.length_map, List.length_zip] at hv ⊢
      rw [hv]

theorem decide_ok_final {inP outP : List Param} {inDts outDts : List (Option Dtype)}
    {it ot : List Dtype} {td : TD}
    (h : decideParamsType inP outP inDts outDts = .ok (it, ot, td)) :
    finalTypes inP td = .ok it ∧ finalTypes outP td = .ok ot := by
  unfold decideParamsType at h
  cases ho : outScanStep outP outDts with
  | error e => simp only [ho] at h; exact absurd h (by simp)
  | ok td0 =>
    simp only [ho] at h
    by_cases hlen : inP.length ≠ inDts.length
    · rw [if_pos hlen] at h; exact absurd h (by simp)
    · rw [if_neg hlen] at h
      cases hi : inScan (inP.zip inDts) td0 with
      | error e => simp only [hi] at h; exact absurd h (by simp)
      | ok td1 =>
        simp only [hi] at h
        cases hf1 : finalTypes inP td1 with
        | error e => simp only [hf1] at h; exact absurd h (by simp)
        | ok its =>
          simp only [hf1] at h
          cases hf2 : finalTypes outP td1 with
          | error e => simp only [hf2] at h; exact absurd h (by simp)
          | ok ots =>
            simp only [hf2] at h
            obtain ⟨rfl, rfl, rfl⟩ : its = it ∧ ots = ot ∧ td1 = td := by
              simpa using h
            exact ⟨hf1, hf2⟩

theorem elementwiseCall_ok_inv {ek : EKernel} {curDev : Nat} {args : List Arg}
    {n : Option Nat} {r : Ret} {evs : List Event}
    (h : elementwiseCall ek curDev args n = .ok (r, evs)) :
    ∃ pr, elementwisePrep ek curDev args n = .ok pr ∧ r = mkRet pr.outs := by
  unfold elementwiseCall at h
  cases hp : elementwisePrep ek curDev args n with
  | error e => rw [hp, except_bind_error] at h; exact absurd h (by simp)
  | ok pr =>
    rw [hp, except_bind_ok] at h
    refine ⟨pr, rfl, ?_⟩
    by_cases hz : pr.brod.size = 0
    · simp only [if_pos hz] at h
      have := (by simpa using h : mkRet pr.outs = r ∧ [] = evs)
      exact this.1.symm
    · simp only [if_neg hz] at h
      have := (by simpa using h :
        mkRet pr.outs = r ∧ _ = evs)
      exact this.1.symm

theorem ufuncCall_ok_inv {u : Ufunc} {tbl : RTable} {curDev : Nat} {args : List Arg}
    {out : Option Arg} {dt? : Option Dtype} {r : Ret} {evs : List Event}
    (h : ufuncCall u tbl curDev args out dt? = .ok (r, evs)) :
    ∃ pr, ufuncPrep u tbl curDev args out dt? = .ok pr ∧ r = mkRet pr.outs := by
  unfold ufuncCall at h
  cases hp : ufuncPrep u tbl curDev args out dt? with
  | error e => rw [hp, except_bind_error] at h; exact absurd h (by simp)
  | ok pr =>
    rw [hp, except_bind_ok] at h
    refine ⟨pr, rfl, ?_⟩
    by_cases hz : (0 : Nat) ∈ pr.brod.shape
    · simp only [if_pos hz] at h
      have := (by simpa using h : mkRet pr.outs = r ∧ [] = evs)
      exact this.1.symm
    · simp only [if_neg hz] at h
      have := (by simpa using h :
        mkRet pr.outs = r ∧ _ = evs)
      exact this.1.symm

theorem guessRoutine_ok_mem {u : Ufunc} {tbl : RTable} {inDts : List Dtype}
    {dt? : Option Dtype} {op : UOp}
    (htbl : ∀ e ∈ tbl, ∀ o, e.2 = some o → o ∈ u.ops)
    (h : guessRoutine u tbl inDts dt? = .ok op) : op ∈ u.ops := by
  unfold guessRoutine at h
  cases hl : rtLookup tbl (keyOf inDts dt?) with
  | some v =>
    simp only [hl] at h
    cases v with
    | none => simp at h
    | some o =>
      obtain rfl : o = op := by simpa using h
      unfold rtLookup at hl
      cases hf : tbl.find? (fun e => decide (e.1 = keyOf inDts dt?)) with
      | none => rw [hf] at hl; simp at hl
      | some e =>
        rw [hf] at hl
        simp at hl
        exact htbl e (List.mem_of_find?_eq_some hf) o hl
  | none =>
    simp only [hl] at h
    cases hs : scanOf u (keyOf inDts dt?) with
    | none => simp only [hs] at h; simp at h
    | some o =>
      simp only [hs] at h
      obtain rfl : o = op := by simpa using h
      cases dt? with
      | none => exact List.mem_of_find?_eq_some hs
      | some d => exact List.mem_of_find?_eq_some hs

theorem mkRet_length_one {outs : List NdView} (h : outs.length = 1) :
    ∃ a, mkRet outs = .one a := by
  cases outs with
  | nil => simp at h
  | cons a rest =>
    cases rest with
    | nil => exact ⟨a, rfl⟩
    | cons b r2 => simp at h

theorem mkRet_length_gt {outs : List NdView} (h : 1 < outs.length) :
    mkRet outs = .tup outs := by
  cases outs with
  | nil => simp at h
  | cons a rest =>
    cases rest with
    | nil => simp at h
    | cons b r2 => rfl

theorem elementwisePrep_outs_length {ek : EKernel} {curDev : Nat} {args : List Arg}
    {n : Option Nat} {pr : PrepResult}
    (hparams : ek.params = ek.in_params ++ ek.out_params ++ [indexerParam])
    (h : elementwisePrep ek curDev args n = .ok pr) :
    pr.outs.length = ek.nout := by
  unfold elementwisePrep at h
  split at h
  · exact absurd h (by simp)
  case isFalse harity0 =>
  have harity : args.length = ek.nin ∨ args.length = ek.nin + ek.nout :=
    not_not.mp harity0
  cases hnp : npCheck args with
  | error e => rw [hnp, except_bind_error] at h; exact absurd h (by simp)
  | ok u0 =>
  rw [hnp, except_bind_ok] at h
  cases hca : checkArgs curDev args with
  | error e => rw [hca, except_bind_error] at h; exact absurd h (by simp)
  | ok u1 =>
  rw [hca, except_bind_ok] at h
  cases hbv : pyBroadcastStage args ek.params n.isNone with
  | error e => rw [hbv, except_bind_error] at h; exact absurd h (by simp)
  | ok bv =>
  rw [hbv, except_bind_ok] at h
  dsimp only [] at h
  cases hty : decideParamsType ek.in_params ek.out_params
      ((bv.2.take ek.nin).map dtypeOfArg) ((bv.2.drop ek.nin).map dtypeOfArg) with
  | error e => rw [hty, except_bind_error] at h; exact absurd h (by simp)
  | ok tys =>
  rw [hty, except_bind_ok] at h
  obtain ⟨its, ots, td⟩ := tys
  cases hout : getOutArgs (bv.2.drop ek.nin) ots bv.1.shape (some ek.out_params) curDev with
  | error e => rw [hout, except_bind_error] at h; exact absurd h (by simp)
  | ok outs =>
  rw [hout, except_bind_ok] at h
  have hpr : pr.outs = outs := by
    have h2 := Except.ok.inj h
    rw [← h2]
  rw [hpr]
  have hplen : ek.params.length = ek.nin + ek.nout + 1 := by
    rw [hparams]
    simp only [List.length_append, List.length_cons, List.length_nil,
      EKernel.nin, EKernel.nout]
  have hvlen : bv.2.length = args.length := by
    have := pyBroadcastStage_value_length hbv
    rw [hplen] at this
    rcases harity with ha | ha <;> (rw [ha] at this ⊢; omega)
  rcases getOutArgs_length hout with ⟨hempty, hlen⟩ | ⟨hne, hlen⟩
  · rw [hlen]
    have hfin := (decide_ok_final hty).2
    exact finalTypes_length hfin
  · rw [hlen, List.length_drop, hvlen]
    have hpos : 0 < (bv.2.drop ek.nin).length := List.length_pos.mpr hne
    rw [List.length_drop, hvlen] at hpos
    rcases harity with ha | ha <;> omega

theorem ufuncPrep_outs_length {u : Ufunc} {tbl : RTable} {curDev : Nat} {args : List Arg}
    {dt? : Option Dtype} {pr : PrepResult}
    (hwf : ∀ op ∈ u.ops, op.outTypes.length = u.nout)
    (htbl : ∀ e ∈ tbl, ∀ o, e.2 = some o → o ∈ u.ops)
    (h : ufuncPrep u tbl curDev args none dt? = .ok pr) :
    pr.outs.length = u.nout := by
  unfold ufuncPrep at h
  split at h
  · exact absurd h (by simp)
  case isFalse harity0 =>
  have harity : args.length = u.nin ∨ args.length = u.nargs := not_not.mp harity0
  cases hbr : cupyBroadcast args with
  | error e => rw [hbr, except_bind_error] at h; exact absurd h (by simp)
  | ok brod =>
  rw [hbr, except_bind_ok] at h
  dsimp only [except_bind_ok] at h
  cases hca : checkArgs curDev ((brod.values.take u.nin).map (fun a =>
      match a with
      | .scalar d true => Arg.scalar d false
      | a => a) ++ args.drop u.nin) with
  | error e => rw [hca, except_bind_error] at h; exact absurd h (by simp)
  | ok u1 =>
  rw [hca, except_bind_ok] at h
  cases hgr : guessRoutine u tbl (((brod.values.take u.nin).map (fun a =>
      match a with
      | .scalar d true => Arg.scalar d false
      | a => a)).map argDtype) dt? with
  | error e => rw [hgr, except_bind_error] at h; exact absurd h (by simp)
  | ok op =>
  rw [hgr, except_bind_ok] at h
  cases hout : getOutArgs (args.drop u.nin) op.outTypes brod.shape none curDev with
  | error e => rw [hout, except_bind_error] at h; exact absurd h (by simp)
  | ok outs =>
  rw [hout, except_bind_ok] at h
  have hpr : pr.outs = outs := by
    have h2 := Except.ok.inj h
    rw [← h2]
  rw [hpr]
  rcases getOutArgs_length hout with ⟨hempty, hlen⟩ | ⟨hne, hlen⟩
  · rw [hlen]
    exact hwf op (guessRoutine_ok_mem htbl hgr)
  · rw [hlen, List.length_drop]
    have hpos : 0 < (args.drop u.nin).length := List.length_pos.mpr hne
    rw [List.length_drop] at hpos
    unfold Ufunc.nargs at harity
    rcases harity with ha | ha <;> omega

/-- C10 counterexample: a successful `ufunc.__call__` of a two-output
ufunc that passes its single output array through the `out` keyword
returns that single array (`Ret.one`), not a tuple of the two declared
outputs — the zero-sized broadcast space makes the call succeed without
any kernel work. -/
theorem claim_return_shape_counterexample :
    ufuncCall uDivmodDemo [] 0
      [.cu ⟨.int32, [0], [4], 0⟩, .cu ⟨.int32, [0], [4], 0⟩]
      (some (.cu ⟨.int32, [0], [4], 0⟩)) none =
      .ok (.one ⟨.int32, [0], [4], 0⟩, []) ∧
    1 < uDivmodDemo.nout ∧
    (∀ arrs : List NdView, Ret.one ⟨.int32, [0], [4], 0⟩ ≠ .tup arrs) := by
  refine ⟨by decide, by decide, ?_⟩
  intro arrs h
  simp at h

/-- C10 (amended): for every successful call, with the parameter list as
assembled by `__init__` (elementwise case) or well-formed registered
signatures and memo table (ufunc case), and — for a ufunc — outputs not
passed through the `out` keyword: the resolved output list of the call
has exactly the declared number of outputs, one declared output yields
that single resolved output array (`Ret.one`), and more than one yields
the tuple of exactly the resolved output arrays in declaration order
(`Ret.tup pr.outs`). -/
theorem claim_return_shape_amended :
    (∀ (ek : EKernel) (curDev : Nat) (args : List Arg) (n : Option Nat) (r : Ret)
        (evs : List Event),
      ek.params = ek.in_params ++ ek.out_params ++ [indexerParam] →
      elementwiseCall ek curDev args n = .ok (r, evs) →
      ∃ pr, elementwisePrep ek curDev args n = .ok pr ∧
        pr.outs.length = ek.nout ∧
        (ek.nout = 1 → ∃ a, pr.outs = [a] ∧ r = .one a) ∧
        (1 < ek.nout → r = .tup pr.outs)) ∧
    (∀ (u : Ufunc) (tbl : RTable) (curDev : Nat) (args : List Arg) (dt? : Option Dtype)
        (r : Ret) (evs : List Event),
      (∀ op ∈ u.ops, op.outTypes.length = u.nout) →
      (∀ e ∈ tbl, ∀ o, e.2 = some o → o ∈ u.ops) →
      ufuncCall u tbl curDev args none dt? = .ok (r, evs) →
      ∃ pr, ufuncPrep u tbl curDev args none dt? = .ok pr ∧
        pr.outs.length = u.nout ∧
        (u.nout = 1 → ∃ a, pr.outs = [a] ∧ r = .one a) ∧
        (1 < u.nout → r = .tup pr.outs)) := by
  constructor
  · intro ek curDev args n r evs hparams hcall
    obtain ⟨pr, hp, hr⟩ := elementwiseCall_ok_inv hcall
    have hlen := elementwisePrep_outs_length hparams hp
    refine ⟨pr, hp, hlen, ?_, ?_⟩
    · intro h1
      rw [h1] at hlen
      cases houts : pr.outs with
      | nil => rw [houts] at hlen; simp at hlen
      | cons a rest =>
        cases rest with
        | nil => exact ⟨a, rfl, by rw [hr, houts]; rfl⟩
        | cons b r2 => rw [houts] at hlen; simp at hlen
    · intro h1
      have hgt : 1 < pr.outs.length := by omega
      rw [hr, mkRet_length_gt hgt]
  · intro u tbl curDev args dt? r evs hwf htbl hcall
    obtain ⟨pr, hp, hr⟩ := ufuncCall_ok_inv hcall
    have hlen := ufuncPrep_outs_length hwf htbl hp
    refine ⟨pr, hp, hlen, ?_, ?_⟩
    · intro h1
      rw [h1] at hlen
      cases houts : pr.outs with
      | nil => rw [houts] at hlen; simp at hlen
      | cons a rest =>
        cases rest with
        | nil => exact ⟨a, rfl, by rw [hr, houts]; rfl⟩
        | cons b r2 => rw [houts] at hlen; simp at hlen
    · intro h1
      have hgt : 1 < pr.outs.length := by omega
      rw [hr, mkRet_length_gt hgt]

/-- Witness for the amended C10: a concrete single-output elementwise
call returns exactly its one resolved output array, and a concrete
two-output ufunc call without the `out` keyword returns exactly the
tuple of its two resolved output arrays. -/
theorem claim_return_shape_amended_witness :
    (∃ pr, elementwisePrep ekOneOut 0 [.cu ⟨.float32, [0], [4], 0⟩] none = .ok pr ∧
      pr.outs.length = ekOneOut.nout ∧
      (ekOneOut.nout = 1 → ∃ a, pr.outs = [a] ∧
        (Ret.one (⟨.float32, [0], [4], 0⟩ : NdView)) = .one a) ∧
      (1 < ekOneOut.nout → (Ret.one (⟨.float32, [0], [4], 0⟩ : NdView)) = .tup pr.outs)) ∧
    (∃ pr, ufuncPrep uDivmodDemo [] 0
        [.cu ⟨.int32, [0], [4], 0⟩, .cu ⟨.int32, [0], [4], 0⟩] none none = .ok pr ∧
      pr.outs.length = uDivmodDemo.nout ∧
      (uDivmodDemo.nout = 1 → ∃ a, pr.outs = [a] ∧
        (Ret.tup [(⟨.int32, [0], [4], 0⟩ : NdView), ⟨.int32, [0], [4], 0⟩]) = .one a) ∧
      (1 < uDivmodDemo.nout →
        (Ret.tup [(⟨.int32, [0], [4], 0⟩ : NdView), ⟨.int32, [0], [4], 0⟩]) =
          .tup pr.outs)) :=
  ⟨claim_return_shape_amended.1 ekOneOut
      0 [.cu ⟨.float32, [0], [4], 0⟩] none
      (.one ⟨.float32, [0], [4], 0⟩) [] (by decide) (by decide),
   claim_return_shape_amended.2 uDivmodDemo [] 0
      [.cu ⟨.int32, [0], [4], 0⟩, .cu ⟨.int32, [0], [4], 0⟩] none
      (.tup [⟨.int32, [0], [4], 0⟩, ⟨.int32, [0], [4], 0⟩]) []
      (by decide) (by intro e he o _; simp at he) (by decide)⟩
